import Mathlib

/-!
# Conflux base32 address aggregate (`types/cfxaddress/address.go`)

A shallow embedding of the `Address` aggregate of package `cfxaddress`:
the constructors `NewFromBase32`, `NewFromHex` and `NewFromBytes`, the cache
step `setCache`, the accessors `ToHex`, `ToCommon`, `GetBase32Address`,
`GetVerboseBase32Address`, `String`, `Equals`, the mutations
`CompleteByNetworkID` and `CompleteByClient`, and the text serialization
`MarshalText` and `UnmarshalJSON`.

Conventions of the embedding.

* A Go `string` is a list of characters.  The model covers the strings made
  of ASCII characters and of the Kelvin sign U+212A: on these `ToLower` and
  `ToUpper` below are Go's `strings.ToLower` and `strings.ToUpper`, and the
  lowercased string is ASCII, so that from the lowercasing in `NewFromBase32`
  on a character is a byte, as `len`, slicing and `strings.Split` need.  The
  text this package handles (network prefix, type label, base32 body,
  checksum) is ASCII.  Go's case maps also change other non-ASCII letters;
  that is not modelled, and a theorem whose truth depends on how a case map
  acts on the input carries the hypothesis that the input is ASCII.
* A Go `[]byte` is a list of naturals, a `uint32` is a natural.
* A Go call returning `(value, error)` returns a pair whose second
  component is `none` for a `nil` error; the value component is kept,
  because Go assigns it to a field before the error is looked at.
* A function of `address.go` that can abort with a run-time panic (a slice
  expression out of range) returns an `Option`, `none` for the panic.
* `NetworkType`, `AddressType`, `Body`, `Checksum` and the functions over
  them live in other files of the package.  The aggregate is embedded over
  an arbitrary `Codec` that supplies them, so every theorem about the
  aggregate holds whatever those files compute; what a theorem needs from
  them is a hypothesis.
-/

namespace Cfxaddress

/-- Go `string`: ASCII characters, one per byte, and the Kelvin sign. -/
abbrev Str := List Char

/-- Go `[]byte`. -/
abbrev Bytes := List Nat

/-! ## Standard-library functions used by `address.go` -/

/-- An ASCII upper-case letter, `A` (65) to `Z` (90). -/
def isUpperLetter (c : Char) : Prop := 65 ≤ c.toNat ∧ c.toNat ≤ 90

/-- An ASCII lower-case letter, `a` (97) to `z` (122). -/
def isLowerLetter (c : Char) : Prop := 97 ≤ c.toNat ∧ c.toNat ≤ 122

instance (c : Char) : Decidable (isUpperLetter c) := by
  unfold isUpperLetter; infer_instance

instance (c : Char) : Decidable (isLowerLetter c) := by
  unfold isLowerLetter; infer_instance

/-- An ASCII character, one byte of a Go string. -/
def isASCII (c : Char) : Prop := c.toNat < 128

instance (c : Char) : Decidable (isASCII c) := by
  unfold isASCII; infer_instance

/-- The Kelvin sign U+212A, the one non-ASCII character of the model.  Go's
`unicode.ToLower` maps it to the ASCII letter `k`; it is an upper-case letter,
so `unicode.ToUpper` leaves it unchanged. -/
def kelvinSign : Char := Char.ofNat 8490

/-- Go `unicode.ToLower` on the characters of the model: an ASCII upper-case
letter goes to its lower-case letter, the Kelvin sign to `k`, every other
ASCII character to itself.  (Go also maps other non-ASCII letters, which are
outside the model.) -/
def lowerRune (c : Char) : Char :=
  if isUpperLetter c then Char.ofNat (c.toNat + 32)
  else if c = kelvinSign then 'k'
  else c

/-- Go `unicode.ToUpper` on the characters of the model: an ASCII lower-case
letter goes to its upper-case letter, every other ASCII character and the
Kelvin sign to itself.  (Go also maps other non-ASCII letters, which are
outside the model.) -/
def upperRune (c : Char) : Char :=
  if isLowerLetter c then Char.ofNat (c.toNat - 32) else c

/-- Go `strings.ToLower` on the strings of the model (ASCII characters and
Kelvin signs): `unicode.ToLower` character by character. -/
def ToLower (s : Str) : Str := s.map lowerRune

/-- Go `strings.ToUpper` on the strings of the model (ASCII characters and
Kelvin signs): `unicode.ToUpper` character by character. -/
def ToUpper (s : Str) : Str := s.map upperRune

/-- Go `strings.Split(s, sep)` for a one-character separator: the pieces of
`s` between occurrences of `sep`; always at least one piece. -/
def Split : Str → Char → List Str
  | [], _ => [[]]
  | c :: cs, sep =>
    if c = sep then [] :: Split cs sep
    else
      match Split cs sep with
      | [] => [[c]]
      | p :: ps => (c :: p) :: ps

/-- One hexadecimal digit, lower case. -/
def hexDigit (n : Nat) : Char :=
  if n < 10 then Char.ofNat (48 + n) else Char.ofNat (87 + n)

/-- Go `hex.EncodeToString`: two lower-case hex digits per byte. -/
def hexEncodeToString : Bytes → Str
  | [] => []
  | b :: bs => hexDigit (b / 16 % 16) :: hexDigit (b % 16) :: hexEncodeToString bs

/-! ## Errors -/

/-- The call site of an `errors.Wrapf` in `address.go`. -/
inductive WrapSite
  | networkType
  | createBody
  | hexAddress
  | addressType
  | versionByte
  | checksum
  | setCacheHex
  | setCacheNetworkID
  | setCache
  | getNetworkID
  | fromBase32
  | decodeHex
  deriving DecidableEq, Repr

/-- Error values: those made by `errors.Errorf` in `address.go`, those
returned by a collaborator (`external`), those of `hex.DecodeString`
(`hexErrLength`, `hexInvalidByte`), and `errors.Wrapf` around a cause. -/
inductive Error
  | mixedCase
  | invalidFormat
  | bodyTooShort
  | invalidAddressType
  | invalidChecksum
  | tooLongForCommon
  | external (code : Nat)
  | hexErrLength
  | hexInvalidByte (c : Char)
  | wrapf (site : WrapSite) (cause : Error)
  deriving DecidableEq, Repr

/-- Go `hex` package, `fromHexChar`: the value of a hexadecimal digit, in either
case. -/
def fromHexChar (c : Char) : Option Nat :=
  if 48 ≤ c.toNat ∧ c.toNat ≤ 57 then some (c.toNat - 48)
  else if 97 ≤ c.toNat ∧ c.toNat ≤ 102 then some (c.toNat - 87)
  else if 65 ≤ c.toNat ∧ c.toNat ≤ 70 then some (c.toNat - 55)
  else none

/-- Go `hex.DecodeString`: one byte per pair of hexadecimal digits; the first
character that is not a digit gives `InvalidByteError`, and a single valid
digit left at the end gives `ErrLength`.  The bytes decoded before the error
are returned with it. -/
def hexDecodeString : Str → Bytes × Option Error
  | [] => ([], none)
  | [p] =>
    match fromHexChar p with
    | none => ([], some (.hexInvalidByte p))
    | some _ => ([], some .hexErrLength)
  | p :: q :: rest =>
    match fromHexChar p, fromHexChar q with
    | none, _ => ([], some (.hexInvalidByte p))
    | some _, none => ([], some (.hexInvalidByte q))
    | some a, some b => ((16 * a + b) :: (hexDecodeString rest).1, (hexDecodeString rest).2)

/-- Go-ethereum `common.BytesToAddress`: the 20-byte address of a byte slice;
a longer slice is cropped from the left, a shorter one is padded with zero
bytes on the left. -/
def BytesToAddress (b : Bytes) : Bytes :=
  let b := if b.length > 20 then b.drop (b.length - 20) else b
  List.replicate (20 - b.length) 0 ++ b

/-! ## The collaborators of the aggregate -/

/-- The types and functions of package `cfxaddress` that `address.go` calls
and that are defined in the package's other files: network type, address
type, body and checksum, with their constructors, conversions and `String`
methods.  `NT`, `AT`, `B`, `C` stand for `NetworkType`, `AddressType`,
`Body`, `Checksum`; their zero values are the `default` elements. -/
structure Codec (NT AT B C : Type) where
  /-- Go `NewNetowrkType(netType string) (NetworkType, error)` -/
  NewNetowrkType : Str → NT × Option Error
  /-- Go `NewNetworkTypeByID(networkID uint32) NetworkType` -/
  NewNetworkTypeByID : Nat → NT
  /-- Go `(n NetworkType) ToNetworkID() (uint32, error)` -/
  ToNetworkID : NT → Nat × Option Error
  /-- Go `(n NetworkType) String() string` -/
  networkTypeString : NT → Str
  /-- Go `CalcAddressType(hexAddress []byte) (AddressType, error)` -/
  CalcAddressType : Bytes → AT × Option Error
  /-- Go `(a AddressType) String() string` -/
  addressTypeString : AT → Str
  /-- Go `CalcVersionByte(hexAddress []byte) (byte, error)` -/
  CalcVersionByte : Bytes → Nat × Option Error
  /-- Go `NewBodyByString(base32Str string) (Body, error)` -/
  NewBodyByString : Str → B × Option Error
  /-- Go `NewBodyByHexAddress(vrsByte byte, hexAddress []byte) (Body, error)` -/
  NewBodyByHexAddress : Nat → Bytes → B × Option Error
  /-- Go `(b Body) ToHexAddress() (vrsType byte, hexAddress []byte, err error)` -/
  ToHexAddress : B → Nat × Bytes × Option Error
  /-- Go `(b Body) String() string` -/
  bodyString : B → Str
  /-- Go `CalcChecksum(nt NetworkType, body Body) (Checksum, error)` -/
  CalcChecksum : NT → B → C × Option Error
  /-- Go `(c Checksum) String() string` -/
  checksumString : C → Str

/-! ## The aggregate -/

/-- Go `type Address struct`. -/
structure Address (NT AT B C : Type) where
  networkType : NT
  addressType : AT
  body : B
  checksum : C
  hex : Bytes
  networkID : Nat
  deriving DecidableEq, Repr

section Aggregate

variable {NT AT B C : Type}

/-- The zero value of `Address`. -/
def Address.zero [Inhabited NT] [Inhabited AT] [Inhabited B] [Inhabited C] :
    Address NT AT B C :=
  { networkType := default, addressType := default, body := default,
    checksum := default, hex := [], networkID := 0 }

/-- Go `func (a *Address) Equals(target *Address) bool`: `reflect.DeepEqual`
of the two structs, field by field. -/
def Address.Equals [DecidableEq NT] [DecidableEq AT] [DecidableEq B] [DecidableEq C]
    (a target : Address NT AT B C) : Bool :=
  decide (a = target)

/-- Go `func get1stNetworkIDIfy(networkID []uint32) uint32` -/
def get1stNetworkIDIfy (networkID : List Nat) : Nat :=
  match networkID with
  | id :: _ => id
  | [] => 0

/-- Go `func (a *Address) setCache() error`: the updated receiver and the
returned error. -/
def setCache (env : Codec NT AT B C) (a : Address NT AT B C) :
    Address NT AT B C × Option Error :=
  match env.ToHexAddress a.body with
  | (_, _, some err) => (a, some (.wrapf .setCacheHex err))
  | (_, hexAddress, none) =>
    let a := { a with hex := hexAddress }
    match env.ToNetworkID a.networkType with
    | (_, some err) => (a, some (.wrapf .setCacheNetworkID err))
    | (networkID, none) => ({ a with networkID := networkID }, none)

/-- Go `func NewFromBase32(base32Str string) (cfxAddress Address, err error)` -/
def NewFromBase32 [Inhabited NT] [Inhabited AT] [Inhabited B] [Inhabited C]
    (env : Codec NT AT B C) (base32Str : Str) : Address NT AT B C × Option Error :=
  let cfxAddress : Address NT AT B C := Address.zero
  if ToLower base32Str ≠ base32Str ∧ ToUpper base32Str ≠ base32Str then
    (cfxAddress, some .mixedCase)
  else
    let base32Str := ToLower base32Str
    let parts := Split base32Str ':'
    if parts.length < 2 ∨ parts.length > 3 then
      (cfxAddress, some .invalidFormat)
    else
      match env.NewNetowrkType (parts.getD 0 []) with
      | (nt, some err) =>
        ({ cfxAddress with networkType := nt }, some (.wrapf .networkType err))
      | (nt, none) =>
        let cfxAddress := { cfxAddress with networkType := nt }
        let bodyWithChecksum := parts.getD (parts.length - 1) []
        if bodyWithChecksum.length < 8 then
          (cfxAddress, some .bodyTooShort)
        else
          let bodyStr := bodyWithChecksum.take (bodyWithChecksum.length - 8)
          match env.NewBodyByString bodyStr with
          | (body, some err) =>
            ({ cfxAddress with body := body }, some (.wrapf .createBody err))
          | (body, none) =>
            let cfxAddress := { cfxAddress with body := body }
            match env.ToHexAddress cfxAddress.body with
            | (_, _, some err) => (cfxAddress, some (.wrapf .hexAddress err))
            | (_, hexAddress, none) =>
              match env.CalcAddressType hexAddress with
              | (addrType, some err) =>
                ({ cfxAddress with addressType := addrType }, some (.wrapf .addressType err))
              | (addrType, none) =>
                let cfxAddress := { cfxAddress with addressType := addrType }
                if parts.length = 3 ∧
                    ToLower (parts.getD 1 []) ≠ env.addressTypeString cfxAddress.addressType then
                  (cfxAddress, some .invalidAddressType)
                else
                  match env.CalcChecksum cfxAddress.networkType cfxAddress.body with
                  | (chk, some err) =>
                    ({ cfxAddress with checksum := chk }, some (.wrapf .checksum err))
                  | (chk, none) =>
                    let cfxAddress := { cfxAddress with checksum := chk }
                    let expectChk := env.checksumString cfxAddress.checksum
                    let actualChk := bodyWithChecksum.drop (bodyWithChecksum.length - 8)
                    let err : Option Error :=
                      if expectChk ≠ actualChk then some .invalidChecksum else none
                    -- `if err := cfxAddress.setCache(); err != nil` declares a new
                    -- `err`: the result `err` is the one computed above
                    ((setCache env cfxAddress).1, err)

/-- Go `func NewFromBytes(hexAddress []byte, networkID ...uint32) (val Address, err error)` -/
def NewFromBytes [Inhabited NT] [Inhabited AT] [Inhabited B] [Inhabited C]
    (env : Codec NT AT B C) (hexAddress : Bytes) (networkID : List Nat) :
    Address NT AT B C × Option Error :=
  let val : Address NT AT B C := Address.zero
  let val := { val with networkType := env.NewNetworkTypeByID (get1stNetworkIDIfy networkID) }
  match env.CalcAddressType hexAddress with
  | (addrType, some err) => ({ val with addressType := addrType }, some (.wrapf .addressType err))
  | (addrType, none) =>
    let val := { val with addressType := addrType }
    match env.CalcVersionByte hexAddress with
    | (_, some err) => (val, some (.wrapf .versionByte err))
    | (versionByte, none) =>
      match env.NewBodyByHexAddress versionByte hexAddress with
      | (body, some err) => ({ val with body := body }, some (.wrapf .createBody err))
      | (body, none) =>
        let val := { val with body := body }
        match env.CalcChecksum val.networkType val.body with
        | (chk, some err) => ({ val with checksum := chk }, some (.wrapf .checksum err))
        | (chk, none) =>
          let val := { val with checksum := chk }
          -- the error of `setCache` is bound to a new `err` and dropped
          ((setCache env val).1, none)

/-- Go `func (a *Address) ToHex() (hexAddressStr string, networkID uint32)` -/
def ToHex (a : Address NT AT B C) : Str × Nat :=
  (hexEncodeToString a.hex, a.networkID)

/-- Go `func (a *Address) GetHexAddress() string` -/
def GetHexAddress (a : Address NT AT B C) : Str :=
  (ToHex a).1

/-- Go `func (a *Address) GetBase32Address() string`:
`fmt.Sprintf("%v:%v%v", a.networkType, a.body, a.checksum)`, each value printed
by its `String` method. -/
def GetBase32Address (env : Codec NT AT B C) (a : Address NT AT B C) : Str :=
  env.networkTypeString a.networkType ++ [':'] ++ env.bodyString a.body ++
    env.checksumString a.checksum

/-- Go `func (a *Address) GetVerboseBase32Address() string` -/
def GetVerboseBase32Address (env : Codec NT AT B C) (a : Address NT AT B C) : Str :=
  ToUpper (env.networkTypeString a.networkType ++ [':'] ++
    env.addressTypeString a.addressType ++ [':'] ++ env.bodyString a.body ++
    env.checksumString a.checksum)

/-- Go `func (a Address) String() string` -/
def Address.String (env : Codec NT AT B C) (a : Address NT AT B C) : Str :=
  GetVerboseBase32Address env a

/-- Go `func (a *Address) CompleteByNetworkID(networkID uint32) error`.  The
receiver is a pointer: `none` is the `nil` receiver.  The result is the
receiver after the call and the returned error. -/
def CompleteByNetworkID (env : Codec NT AT B C) (a : Option (Address NT AT B C))
    (networkID : Nat) : Option (Address NT AT B C) × Option Error :=
  match a with
  | none => (none, none)
  | some a =>
    match env.ToNetworkID a.networkType with
    | (id, err) =>
      if err ≠ none ∨ id = 0 then
        let a := { a with networkType := env.NewNetworkTypeByID networkID }
        match env.CalcChecksum a.networkType a.body with
        | (chk, some err) => (some { a with checksum := chk }, some (.wrapf .checksum err))
        | (chk, none) => (some { a with checksum := chk }, none)
      else (some a, none)

/-- Go `func (a *Address) GetNetworkID() uint32`; `none` stands for the panic
raised by `helper.PanicIfErrf` when the network type has no id. -/
def GetNetworkID (env : Codec NT AT B C) (a : Address NT AT B C) : Option Nat :=
  match env.ToNetworkID a.networkType with
  | (id, none) => some id
  | (_, some _) => none

/-- Go `func NewFromHex(hexAddressStr string, networkID ...uint32) (val Address, err error)`.
The slice expression `hexAddressStr[0:2]` is out of range for a string shorter
than 2 bytes, and the call aborts with a run-time panic: `none`. -/
def NewFromHex [Inhabited NT] [Inhabited AT] [Inhabited B] [Inhabited C]
    (env : Codec NT AT B C) (hexAddressStr : Str) (networkID : List Nat) :
    Option (Address NT AT B C × Option Error) :=
  if hexAddressStr.length < 2 then none
  else
    let hexAddressStr :=
      if hexAddressStr.take 2 = ['0', 'x'] then hexAddressStr.drop 2 else hexAddressStr
    match hexDecodeString hexAddressStr with
    | (_, some err) => some (Address.zero, some (.wrapf .decodeHex err))
    | (hexAddress, none) => some (NewFromBytes env hexAddress networkID)

/-- Go `func (a *Address) ToCommon() (address common.Address, networkID uint32, err error)`.
The results are named: `address` starts as the zero address, `networkID` as 0,
and `networkID` is assigned nowhere in the body. -/
def ToCommon (a : Address NT AT B C) : Bytes × Nat × Option Error :=
  let address : Bytes := List.replicate 20 0
  let networkID : Nat := 0
  if a.hex.length > 42 then (address, networkID, some .tooLongForCommon)
  else (BytesToAddress a.hex, networkID, none)

/-- Go `func (a Address) MarshalText() ([]byte, error)` -/
def MarshalText (env : Codec NT AT B C) (a : Address NT AT B C) : Str × Option Error :=
  (Address.String env a, none)

/-- Go `func (a *Address) UnmarshalJSON(data []byte) error`: the destination
after the call and the returned error.  The slice expression
`data[1 : len(data)-1]` is out of range for fewer than 2 bytes, and the call
aborts with a run-time panic: `none`. -/
def UnmarshalJSON [Inhabited NT] [Inhabited AT] [Inhabited B] [Inhabited C]
    (env : Codec NT AT B C) (a : Address NT AT B C) (data : Str) :
    Option (Address NT AT B C × Option Error) :=
  if data = ['n', 'u', 'l', 'l'] then some (a, none)
  else if data.length < 2 then none
  else
    let data := (data.take (data.length - 1)).drop 1
    match NewFromBase32 env data with
    | (_, some err) => some (a, some (.wrapf .fromBase32 err))
    | (addr, none) => some (addr, none)

/-- Go `func (a *Address) CompleteByClient(client networkIDGetter) error`.  The
client is given by what its `GetNetworkID()` returns; the result is the
receiver after the call and the returned error. -/
def CompleteByClient (env : Codec NT AT B C) (a : Option (Address NT AT B C))
    (client : Nat × Option Error) : Option (Address NT AT B C) × Option Error :=
  match client with
  | (_, some err) => (a, some (.wrapf .getNetworkID err))
  | (networkID, none) => ((CompleteByNetworkID env a networkID).1, none)

end Aggregate

/-! ## Local variables of `NewFromBase32`, as functions of its input -/

/-- The variable `parts` of `NewFromBase32`: the segments of the lowercased input. -/
def parts (base32Str : Str) : List Str := Split (ToLower base32Str) ':'

/-- The variable `bodyWithChecksum` of `NewFromBase32`: `parts[len(parts)-1]`. -/
def bodyWithChecksum (base32Str : Str) : Str :=
  (parts base32Str).getD ((parts base32Str).length - 1) []

/-- The variable `bodyStr` of `NewFromBase32`: the final segment without its
last 8 characters. -/
def bodyStr (base32Str : Str) : Str :=
  (bodyWithChecksum base32Str).take ((bodyWithChecksum base32Str).length - 8)

/-- The variable `actualChk` of `NewFromBase32`: the last 8 characters of the final segment. -/
def actualChk (base32Str : Str) : Str :=
  (bodyWithChecksum base32Str).drop ((bodyWithChecksum base32Str).length - 8)

/-! ## Consistency of an address with the codec -/

section Consistency
variable {NT AT B C : Type}

/-- The derived and cached fields of an address agree with its network type
and body: the body unpacks to the cached hex, the cached hex classifies to the
address type, the checksum is the one of network type and body, and the cached
network id is the id of the network type, or 0 when the network type has no
id. -/
def Derived (env : Codec NT AT B C) (a : Address NT AT B C) : Prop :=
  (env.ToHexAddress a.body).2 = (a.hex, none) ∧
  env.CalcAddressType a.hex = (a.addressType, none) ∧
  env.CalcChecksum a.networkType a.body = (a.checksum, none) ∧
  (env.ToNetworkID a.networkType = (a.networkID, none) ∨
    ((env.ToNetworkID a.networkType).2 ≠ none ∧ a.networkID = 0))

/-- The text forms of the fields of an address are canonical: lower case,
without a colon, the checksum 8 characters long, and the codec reads the
network prefix and the body text back to the network type and the body. -/
def CanonicalText (env : Codec NT AT B C) (a : Address NT AT B C) : Prop :=
  (ToLower (env.networkTypeString a.networkType) = env.networkTypeString a.networkType ∧
    ToLower (env.addressTypeString a.addressType) = env.addressTypeString a.addressType ∧
    ToLower (env.bodyString a.body) = env.bodyString a.body ∧
    ToLower (env.checksumString a.checksum) = env.checksumString a.checksum) ∧
  (':' ∉ env.networkTypeString a.networkType ∧
    ':' ∉ env.addressTypeString a.addressType ∧
    ':' ∉ env.bodyString a.body ∧
    ':' ∉ env.checksumString a.checksum) ∧
  (env.checksumString a.checksum).length = 8 ∧
  env.NewNetowrkType (env.networkTypeString a.networkType) = (a.networkType, none) ∧
  env.NewBodyByString (env.bodyString a.body) = (a.body, none)

end Consistency

/-! ## A concrete codec

The collaborators are not part of `address.go`.  The instance below follows
the specification of the codec (sections 3 and 4.1 to 4.4) with the constants
of the published CIP-37 address format; it is the instance at which the
theorems about the aggregate are evaluated on concrete addresses. -/

namespace Cip37

/-- Modelled from the spec: `NetworkType` (defined outside `address.go`), a
closed variant `Mainnet`, `Testnet` or `Custom(id)`; `custom 0` is the unset
network. -/
inductive NetworkType
  | mainnet
  | testnet
  | custom (id : Nat)
  deriving DecidableEq, Repr

instance : Inhabited NetworkType := ⟨.custom 0⟩

/-- Modelled from the spec: `AddressType` (defined outside `address.go`), a
closed variant `Null`, `Builtin`, `User`, `Contract`, `Invalid`. -/
inductive AddressType
  | null
  | builtin
  | user
  | contract
  | invalid
  deriving DecidableEq, Repr

instance : Inhabited AddressType := ⟨.invalid⟩

/-- Modelled from the spec: `Body` (defined outside `address.go`), the
payload as a sequence of 5-bit groups. -/
abbrev Body := List Nat

/-- Modelled from the spec: `Checksum` (defined outside `address.go`), eight
5-bit groups. -/
abbrev Checksum := List Nat

/-- Modelled from the spec: the decimal id of the numeric-suffixed network
prefix (section 3), most significant digit first; `fuel` bounds the number of
digits. -/
def decimalDigits : Nat → Nat → Str
  | 0, _ => []
  | fuel + 1, n =>
    if n < 10 then [Char.ofNat (48 + n)]
    else decimalDigits fuel (n / 10) ++ [Char.ofNat (48 + n % 10)]

/-- Modelled from the spec: the decimal id read back from a custom-network
prefix (section 4.1 `parse`); `none` if a character is not a digit or the
string is empty. -/
def parseDecimal (s : Str) : Option Nat :=
  if s = [] then none
  else s.foldl (fun acc c =>
    match acc with
    | none => none
    | some n =>
      if 48 ≤ c.toNat ∧ c.toNat ≤ 57 then some (10 * n + (c.toNat - 48))
      else none) (some 0)

/-- Modelled from the spec: `NetworkType.String` (section 4.1 `format`), the
canonical lowercase prefix: `cfx`, `cfxtest`, or `net` followed by the id. -/
def networkTypeString : NetworkType → Str
  | .mainnet => "cfx".toList
  | .testnet => "cfxtest".toList
  | .custom id => "net".toList ++ decimalDigits 10 id

/-- Modelled from the spec: `NewNetworkTypeByID` (section 4.1
`fromNumericID`): the known ids map to mainnet and testnet, anything else to
`custom id`, and `0` to the unset custom value. -/
def NewNetworkTypeByID (networkID : Nat) : NetworkType :=
  if networkID = 1029 then .mainnet
  else if networkID = 1 then .testnet
  else .custom networkID

/-- Modelled from the spec: `NetworkType.ToNetworkID` (section 4.1
`toNumericID`), the inverse of `NewNetworkTypeByID`; fails on the unset
value. -/
def ToNetworkID : NetworkType → Nat × Option Error
  | .mainnet => (1029, none)
  | .testnet => (1, none)
  | .custom 0 => (0, some (.external 1))
  | .custom id => (id, none)

/-- Modelled from the spec: `NewNetowrkType` (section 4.1 `parse`):
recognizes `cfx`, `cfxtest` and `net` followed by a decimal id; a custom id
of 0 is never constructed from a prefix. -/
def NewNetowrkType (netType : Str) : NetworkType × Option Error :=
  if netType = "cfx".toList then (.mainnet, none)
  else if netType = "cfxtest".toList then (.testnet, none)
  else if netType.take 3 = "net".toList then
    match parseDecimal (netType.drop 3) with
    | some 0 => (default, some (.external 2))
    | some id => (.custom id, none)
    | none => (default, some (.external 2))
  else (default, some (.external 2))

/-- Modelled from the spec: `AddressType.String`, the canonical label. -/
def addressTypeString : AddressType → Str
  | .null => "null".toList
  | .builtin => "builtin".toList
  | .user => "user".toList
  | .contract => "contract".toList
  | .invalid => "invalid".toList

/-- Modelled from the spec: `CalcAddressType` (section 4.2 `classify`): a
function of the first byte; byte values outside the defined ranges cannot be
assigned a routable type. -/
def CalcAddressType (hexAddress : Bytes) : AddressType × Option Error :=
  match hexAddress with
  | [] => (.invalid, some (.external 3))
  | b :: _ =>
    if b = 0 then (.null, none)
    else if b / 16 = 0 then (.builtin, none)
    else if b / 16 = 1 then (.user, none)
    else if b / 16 = 8 then (.contract, none)
    else (.invalid, some (.external 3))

/-- Modelled from the spec: `CalcVersionByte`: the version byte of a payload
of the fixed length of 20 bytes. -/
def CalcVersionByte (hexAddress : Bytes) : Nat × Option Error :=
  if hexAddress.length = 20 then (0, none) else (0, some (.external 4))

/-- Modelled from the spec: the fixed, order-significant 32-character alphabet
of the body codec (section 4.3); the characters are those of the published
address format. -/
def alphabet : Str := "abcdefghjkmnprstuvwxyz0123456789".toList

/-- Modelled from the spec: the eight bits of a byte, most significant first
(section 4.3, bit packing). -/
def byteBits (b : Nat) : List Nat :=
  [b / 128 % 2, b / 64 % 2, b / 32 % 2, b / 16 % 2, b / 8 % 2, b / 4 % 2, b / 2 % 2, b % 2]

/-- Modelled from the spec: the five bits of a quintet, most significant first
(section 4.3, bit packing). -/
def quintetBits (q : Nat) : List Nat :=
  [q / 16 % 2, q / 8 % 2, q / 4 % 2, q / 2 % 2, q % 2]

/-- Modelled from the spec: bits packed into 5-bit groups, the last group
padded with zero bits (section 4.3). -/
def packQuintets : List Nat → List Nat
  | a :: b :: c :: d :: e :: rest => (16 * a + 8 * b + 4 * c + 2 * d + e) :: packQuintets rest
  | [] => []
  | [a] => [16 * a]
  | [a, b] => [16 * a + 8 * b]
  | [a, b, c] => [16 * a + 8 * b + 4 * c]
  | [a, b, c, d] => [16 * a + 8 * b + 4 * c + 2 * d]

/-- Modelled from the spec: bits packed into bytes, with the padding bits left
over (section 4.3). -/
def packBytes : List Nat → List Nat × List Nat
  | a :: b :: c :: d :: e :: f :: g :: h :: rest =>
    let r := packBytes rest
    ((128 * a + 64 * b + 32 * c + 16 * d + 8 * e + 4 * f + 2 * g + h) :: r.1, r.2)
  | rest => ([], rest)

/-- Modelled from the spec: `NewBodyByHexAddress` (section 4.3
`encodeFromBinary`): version byte and address bytes packed into quintets;
fails unless the payload has the fixed length. -/
def NewBodyByHexAddress (vrsByte : Nat) (hexAddress : Bytes) : Body × Option Error :=
  if hexAddress.length = 20 then
    (packQuintets ((vrsByte :: hexAddress).flatMap byteBits), none)
  else ([], some (.external 5))

/-- Modelled from the spec: `Body.ToHexAddress` (section 4.3): the version
byte and the address bytes of a body; the padding bits of the final partial
group must be zero. -/
def ToHexAddress (b : Body) : Nat × Bytes × Option Error :=
  match packBytes (b.flatMap quintetBits) with
  | (v :: hexAddress, pad) =>
    if pad.all (fun x => x = 0) then (v, hexAddress, none) else (0, [], some (.external 6))
  | ([], _) => (0, [], some (.external 6))

/-- Modelled from the spec: `NewBodyByString` (section 4.3 `decodeFromText`):
every character must belong to the alphabet, and the padding must be zero. -/
def NewBodyByString (base32Str : Str) : Body × Option Error :=
  if base32Str.all (fun c => alphabet.contains c) then
    let body : Body := base32Str.map (fun c => alphabet.indexOf c)
    match ToHexAddress body with
    | (_, _, none) => (body, none)
    | (_, _, some err) => ([], some err)
  else ([], some (.external 7))

/-- Modelled from the spec: `Body.String` and `Checksum.String`, the text form
of a sequence of quintets over the alphabet. -/
def quintetsString (qs : List Nat) : Str :=
  qs.map (fun q => alphabet.getD q 'a')

/-- Modelled from the spec: one step of the checksum generator (section 4.4);
the spec leaves the generator constants to the published address format, from
which these are taken. -/
def polymodStep (c d : Nat) : Nat :=
  let c0 := c / 2 ^ 35
  let c1 := ((c % 2 ^ 35) * 32) ^^^ d
  let c2 := if c0 % 2 = 1 then c1 ^^^ 0x98f2bc8e61 else c1
  let c3 := if c0 / 2 % 2 = 1 then c2 ^^^ 0x79b76d99e2 else c2
  let c4 := if c0 / 4 % 2 = 1 then c3 ^^^ 0xf33e5fb3c4 else c3
  let c5 := if c0 / 8 % 2 = 1 then c4 ^^^ 0xae2eabe2a8 else c4
  if c0 / 16 % 2 = 1 then c5 ^^^ 0x1e4f43e470 else c5

/-- Modelled from the spec: the checksum generator folded over a sequence of
5-bit values (section 4.4). -/
def polymod (v : List Nat) : Nat :=
  (v.foldl polymodStep 1) ^^^ 1

/-- Modelled from the spec: `CalcChecksum` (section 4.4 `compute`): expands
the network prefix, folds in every quintet of the body and extracts eight
quintets. -/
def CalcChecksum (nt : NetworkType) (body : Body) : Checksum × Option Error :=
  let lower5bitsNettype := (networkTypeString nt).map (fun c => c.toNat % 32)
  let chk := polymod (lower5bitsNettype ++ [0] ++ body ++ [0, 0, 0, 0, 0, 0, 0, 0])
  ([chk / 2 ^ 35 % 32, chk / 2 ^ 30 % 32, chk / 2 ^ 25 % 32, chk / 2 ^ 20 % 32,
    chk / 2 ^ 15 % 32, chk / 2 ^ 10 % 32, chk / 2 ^ 5 % 32, chk % 32], none)

/-- Modelled from the spec: the collaborators of `address.go` assembled into a
codec. -/
def codec : Codec NetworkType AddressType Body Checksum where
  NewNetowrkType := NewNetowrkType
  NewNetworkTypeByID := NewNetworkTypeByID
  ToNetworkID := ToNetworkID
  networkTypeString := networkTypeString
  CalcAddressType := CalcAddressType
  addressTypeString := addressTypeString
  CalcVersionByte := CalcVersionByte
  NewBodyByString := NewBodyByString
  NewBodyByHexAddress := NewBodyByHexAddress
  ToHexAddress := ToHexAddress
  bodyString := quintetsString
  CalcChecksum := CalcChecksum
  checksumString := quintetsString

/-- The payload `1a2f80341409639ea6a35bbcab8299066109aa55` of the CIP-37
examples, a user address. -/
def examplePayload : Bytes :=
  [0x1a, 0x2f, 0x80, 0x34, 0x14, 0x09, 0x63, 0x9e, 0xa6, 0xa3,
   0x5b, 0xbc, 0xab, 0x82, 0x99, 0x06, 0x61, 0x09, 0xaa, 0x55]

/-- The mainnet address of `examplePayload`. -/
def exampleText : Str := "cfx:aarc9abycue0hhzgyrr53m6cxedgccrmmyybjgh4xg".toList

/-- The address built from `examplePayload` without a network id, as
`NewFromBytes(payload)` returns it. -/
def exampleUnbound : Address NetworkType AddressType Body Checksum :=
  (NewFromBytes codec examplePayload []).1

/-- The receiver after `exampleUnbound.CompleteByNetworkID(1029)`. -/
def exampleCompleted : Option (Address NetworkType AddressType Body Checksum) :=
  (CompleteByNetworkID codec (some exampleUnbound) 1029).1

/-- The address built from `examplePayload` with network id 1029, as
`NewFromBytes(payload, 1029)` returns it. -/
def exampleBound : Address NetworkType AddressType Body Checksum :=
  (NewFromBytes codec examplePayload [1029]).1

/-- The verbose upper-case text of `examplePayload` on the custom network 2;
the character at position 45, the second of its checksum suffix, is `K`. -/
def exampleUpperText : Str := "NET2:USER:AARC9ABYCUE0HHZGYRR53M6CXEDGCCRMMY3KZ3CJ6D".toList

/-- The text `exampleUpperText` with the `K` at position 45 replaced by the
Kelvin sign. -/
def exampleKelvinText : Str := exampleUpperText.set 45 kelvinSign

/-- A mainnet text whose body holds the version byte 1 and a payload of 24
bytes, `examplePayload` followed by the bytes 1, 2, 3, 4. -/
def exampleLongText : Str := "cfx:aerc9abycue0hhzgyrr53m6cxedgccrmmyauea2ea91vpr8y".toList

end Cip37

/-! # Theorems -/

/-! ## Case mapping -/

theorem toNat_ofNat_small (n : Nat) (h : n < 0xd800) : (Char.ofNat n).toNat = n := by
  have hv : n.isValidChar := Or.inl h
  simp only [Char.ofNat, hv, Char.toNat, Char.ofNatAux, dite_true]
  rfl

theorem lowerRune_toNat_of_upper (c : Char) (h : isUpperLetter c) :
    (lowerRune c).toNat = c.toNat + 32 := by
  have h' := h
  unfold isUpperLetter at h'
  simp only [lowerRune, h, if_true]
  exact toNat_ofNat_small _ (by omega)

theorem upperRune_toNat_of_lower (c : Char) (h : isLowerLetter c) :
    (upperRune c).toNat = c.toNat - 32 := by
  have h' := h
  unfold isLowerLetter at h'
  simp only [upperRune, h, if_true]
  exact toNat_ofNat_small _ (by omega)

theorem kelvinSign_toNat : kelvinSign.toNat = 8490 := by decide

theorem ne_kelvinSign_of_isASCII (c : Char) (h : isASCII c) : c ≠ kelvinSign := by
  intro e
  unfold isASCII at h
  rw [e, kelvinSign_toNat] at h
  omega

theorem not_isUpperLetter_kelvinSign : ¬ isUpperLetter kelvinSign := by decide

theorem lowerRune_kelvinSign : lowerRune kelvinSign = 'k' := by decide

theorem lowerRune_eq_of_not_upper (c : Char) (h : ¬ isUpperLetter c) (hk : c ≠ kelvinSign) :
    lowerRune c = c := by
  simp [lowerRune, h, hk]

theorem upperRune_eq_of_not_lower (c : Char) (h : ¬ isLowerLetter c) : upperRune c = c := by
  simp [upperRune, h]

theorem lowerRune_ne_of_upper (c : Char) (h : isUpperLetter c) : lowerRune c ≠ c := by
  intro heq
  have := lowerRune_toNat_of_upper c h
  rw [heq] at this
  omega

theorem upperRune_ne_of_lower (c : Char) (h : isLowerLetter c) : upperRune c ≠ c := by
  intro heq
  have := upperRune_toNat_of_lower c h
  have h' := h
  unfold isLowerLetter at h'
  rw [heq] at this
  omega

theorem lowerRune_not_upper (c : Char) : ¬ isUpperLetter (lowerRune c) := by
  by_cases h : isUpperLetter c
  · have h' := h
    unfold isUpperLetter at h' ⊢
    rw [lowerRune_toNat_of_upper c h]
    omega
  · by_cases hk : c = kelvinSign
    · rw [hk, lowerRune_kelvinSign]
      decide
    · rw [lowerRune_eq_of_not_upper c h hk]; exact h

theorem lowerRune_ne_kelvinSign (c : Char) : lowerRune c ≠ kelvinSign := by
  by_cases h : isUpperLetter c
  · intro e
    have h' := h
    unfold isUpperLetter at h'
    have := lowerRune_toNat_of_upper c h
    rw [e, kelvinSign_toNat] at this
    omega
  · by_cases hk : c = kelvinSign
    · rw [hk, lowerRune_kelvinSign]
      decide
    · rw [lowerRune_eq_of_not_upper c h hk]; exact hk

theorem ToLower_eq_iff (s : Str) :
    ToLower s = s ↔ ∀ c ∈ s, ¬ isUpperLetter c ∧ c ≠ kelvinSign := by
  induction s with
  | nil => simp [ToLower]
  | cons c cs ih =>
    simp only [ToLower, List.map_cons, List.cons.injEq, List.mem_cons, forall_eq_or_imp] at ih ⊢
    constructor
    · rintro ⟨h1, h2⟩
      refine ⟨⟨fun hu => lowerRune_ne_of_upper c hu h1, ?_⟩, ih.mp h2⟩
      intro hk
      rw [hk, lowerRune_kelvinSign] at h1
      exact absurd h1 (by decide)
    · rintro ⟨⟨h1, hk⟩, h2⟩
      exact ⟨lowerRune_eq_of_not_upper c h1 hk, ih.mpr h2⟩

/-- On ASCII text `ToLower` changes nothing exactly when no character is an
upper-case letter. -/
theorem ToLower_eq_iff_of_isASCII (s : Str) (hs : ∀ c ∈ s, isASCII c) :
    ToLower s = s ↔ ∀ c ∈ s, ¬ isUpperLetter c := by
  rw [ToLower_eq_iff]
  constructor
  · intro h c hc
    exact (h c hc).1
  · intro h c hc
    exact ⟨h c hc, ne_kelvinSign_of_isASCII c (hs c hc)⟩

theorem ToUpper_eq_iff (s : Str) : ToUpper s = s ↔ ∀ c ∈ s, ¬ isLowerLetter c := by
  induction s with
  | nil => simp [ToUpper]
  | cons c cs ih =>
    simp only [ToUpper, List.map_cons, List.cons.injEq, List.mem_cons, forall_eq_or_imp] at ih ⊢
    constructor
    · rintro ⟨h1, h2⟩
      exact ⟨fun hu => upperRune_ne_of_lower c hu h1, ih.mp h2⟩
    · rintro ⟨h1, h2⟩
      exact ⟨upperRune_eq_of_not_lower c h1, ih.mpr h2⟩

theorem ToLower_idem (s : Str) : ToLower (ToLower s) = ToLower s := by
  rw [ToLower_eq_iff]
  intro c hc
  simp only [ToLower, List.mem_map] at hc
  obtain ⟨d, _, rfl⟩ := hc
  exact ⟨lowerRune_not_upper d, lowerRune_ne_kelvinSign d⟩

theorem ToLower_append (s t : Str) : ToLower (s ++ t) = ToLower s ++ ToLower t := by
  simp [ToLower]

theorem ToUpper_append (s t : Str) : ToUpper (s ++ t) = ToUpper s ++ ToUpper t := by
  simp [ToUpper]

theorem ToLower_length (s : Str) : (ToLower s).length = s.length := by
  simp [ToLower]

/-! ## Split -/

theorem Split_ne_nil (s : Str) (sep : Char) : Split s sep ≠ [] := by
  induction s with
  | nil => simp [Split]
  | cons c cs ih =>
    unfold Split
    split_ifs
    · simp
    · split <;> simp

theorem Split_cons_sep (cs : Str) (sep : Char) : Split (sep :: cs) sep = [] :: Split cs sep := by
  simp [Split]

theorem Split_cons_ne (c : Char) (cs : Str) (sep : Char) (h : c ≠ sep) :
    ∃ p ps, Split cs sep = p :: ps ∧ Split (c :: cs) sep = (c :: p) :: ps := by
  cases hs : Split cs sep with
  | nil => exact absurd hs (Split_ne_nil cs sep)
  | cons p ps =>
    refine ⟨p, ps, rfl, ?_⟩
    rw [Split, if_neg h, hs]

theorem Split_length (s : Str) (sep : Char) : (Split s sep).length = s.count sep + 1 := by
  induction s with
  | nil => simp [Split]
  | cons c cs ih =>
    by_cases h : c = sep
    · subst h
      rw [Split_cons_sep, List.length_cons, ih, List.count_cons_self]
    · obtain ⟨p, ps, h1, h2⟩ := Split_cons_ne c cs sep h
      rw [h2, List.count_cons_of_ne (Ne.symm h), ← ih, h1]
      simp

theorem lowerRune_colon_iff (c : Char) : lowerRune c = ':' ↔ c = ':' := by
  by_cases h : isUpperLetter c
  · constructor
    · intro he
      have := lowerRune_toNat_of_upper c h
      rw [he] at this
      have h2 : (':' : Char).toNat = 58 := by decide
      have h' := h
      unfold isUpperLetter at h'
      omega
    · intro he
      subst he
      exact absurd h (by decide)
  · by_cases hk : c = kelvinSign
    · rw [hk, lowerRune_kelvinSign]
      constructor
      · intro he
        exact absurd he (by decide)
      · intro he
        exact absurd he (by decide)
    · rw [lowerRune_eq_of_not_upper c h hk]

theorem count_colon_ToLower (s : Str) : (ToLower s).count ':' = s.count ':' := by
  induction s with
  | nil => rfl
  | cons c cs ih =>
    simp only [ToLower, List.map_cons] at ih ⊢
    by_cases h : c = ':'
    · subst h
      have : lowerRune ':' = ':' := by decide
      rw [this, List.count_cons_self, List.count_cons_self, ih]
    · have h' : lowerRune c ≠ ':' := fun he => h ((lowerRune_colon_iff c).mp he)
      rw [List.count_cons_of_ne (Ne.symm h'), List.count_cons_of_ne (Ne.symm h), ih]


/-! ## The stages of `NewFromBase32` -/

section
variable {NT AT B C : Type} [Inhabited NT] [Inhabited AT] [Inhabited B] [Inhabited C]

theorem NewFromBase32_mixed (env : Codec NT AT B C) (s : Str)
    (h : ToLower s ≠ s ∧ ToUpper s ≠ s) :
    NewFromBase32 env s = (Address.zero, some .mixedCase) := by
  unfold NewFromBase32
  simp only [h, ne_eq, not_false_eq_true, and_self, if_true]

theorem not_mixed_of_uniform (s : Str) (h : ToLower s = s ∨ ToUpper s = s) :
    ¬ (ToLower s ≠ s ∧ ToUpper s ≠ s) := by
  rcases h with h | h <;> simp [h]

theorem NewFromBase32_lower (env : Codec NT AT B C) (s : Str)
    (h : ToLower s = s ∨ ToUpper s = s) :
    NewFromBase32 env s = NewFromBase32 env (ToLower s) := by
  have h1 := not_mixed_of_uniform s h
  unfold NewFromBase32
  simp only [h1, if_false, ToLower_idem, ne_eq, not_true_eq_false, false_and]

theorem NewFromBase32_format (env : Codec NT AT B C) (s : Str)
    (h : ToLower s = s ∨ ToUpper s = s)
    (hparts : (parts s).length < 2 ∨ (parts s).length > 3) :
    NewFromBase32 env s = (Address.zero, some .invalidFormat) := by
  have h1 := not_mixed_of_uniform s h
  unfold parts at hparts
  unfold NewFromBase32
  simp only [h1, if_false, hparts, if_true]

theorem NewFromBase32_network (env : Codec NT AT B C) (s : Str)
    (h : ToLower s = s ∨ ToUpper s = s)
    (hparts : (parts s).length = 2 ∨ (parts s).length = 3)
    (nt : NT) (err : Error) (hnet : env.NewNetowrkType ((parts s).getD 0 []) = (nt, some err)) :
    NewFromBase32 env s =
      ({ (Address.zero : Address NT AT B C) with networkType := nt },
        some (.wrapf .networkType err)) := by
  have h1 := not_mixed_of_uniform s h
  have h2 : ¬ ((parts s).length < 2 ∨ (parts s).length > 3) := by omega
  unfold parts at hparts h2 hnet
  unfold NewFromBase32
  simp only [h1, if_false, h2, hnet]

theorem NewFromBase32_short (env : Codec NT AT B C) (s : Str)
    (h : ToLower s = s ∨ ToUpper s = s)
    (hparts : (parts s).length = 2 ∨ (parts s).length = 3)
    (nt : NT) (hnet : env.NewNetowrkType ((parts s).getD 0 []) = (nt, none))
    (hlen : (bodyWithChecksum s).length < 8) :
    NewFromBase32 env s =
      ({ (Address.zero : Address NT AT B C) with networkType := nt }, some .bodyTooShort) := by
  have h1 := not_mixed_of_uniform s h
  have h2 : ¬ ((parts s).length < 2 ∨ (parts s).length > 3) := by omega
  unfold bodyWithChecksum at hlen
  unfold parts at hparts h2 hnet hlen
  unfold NewFromBase32
  simp only [h1, if_false, h2, hnet, hlen, if_true]

theorem NewFromBase32_label (env : Codec NT AT B C) (s : Str)
    (h : ToLower s = s ∨ ToUpper s = s)
    (hparts : (parts s).length = 3)
    (nt : NT) (hnet : env.NewNetowrkType ((parts s).getD 0 []) = (nt, none))
    (hlen : 8 ≤ (bodyWithChecksum s).length)
    (body : B) (hbody : env.NewBodyByString (bodyStr s) = (body, none))
    (v : Nat) (hexAddress : Bytes) (hhex : env.ToHexAddress body = (v, hexAddress, none))
    (addrType : AT) (htype : env.CalcAddressType hexAddress = (addrType, none))
    (hlabel : ToLower ((parts s).getD 1 []) ≠ env.addressTypeString addrType) :
    NewFromBase32 env s =
      ({ (Address.zero : Address NT AT B C) with
          networkType := nt, body := body, addressType := addrType },
        some .invalidAddressType) := by
  have h1 := not_mixed_of_uniform s h
  have h2 : ¬ ((parts s).length < 2 ∨ (parts s).length > 3) := by omega
  have h3 : ¬ (bodyWithChecksum s).length < 8 := by omega
  unfold bodyStr at hbody
  unfold bodyWithChecksum at hbody h3
  have h4 : (parts s).length = 3 ∧
      ToLower ((parts s).getD 1 []) ≠ env.addressTypeString addrType := ⟨hparts, hlabel⟩
  unfold parts at h2 hnet hbody h3 h4
  unfold NewFromBase32
  simp only [h1, if_false, h2, hnet, h3, hbody, hhex, htype]
  rw [if_pos h4]

theorem NewFromBase32_checked (env : Codec NT AT B C) (s : Str)
    (h : ToLower s = s ∨ ToUpper s = s)
    (hparts : (parts s).length = 2 ∨ (parts s).length = 3)
    (nt : NT) (hnet : env.NewNetowrkType ((parts s).getD 0 []) = (nt, none))
    (hlen : 8 ≤ (bodyWithChecksum s).length)
    (body : B) (hbody : env.NewBodyByString (bodyStr s) = (body, none))
    (v : Nat) (hexAddress : Bytes) (hhex : env.ToHexAddress body = (v, hexAddress, none))
    (addrType : AT) (htype : env.CalcAddressType hexAddress = (addrType, none))
    (hlabel : (parts s).length = 3 →
      ToLower ((parts s).getD 1 []) = env.addressTypeString addrType)
    (chk : C) (hchk : env.CalcChecksum nt body = (chk, none)) :
    NewFromBase32 env s =
      ((setCache env { (Address.zero : Address NT AT B C) with
          networkType := nt, body := body, addressType := addrType, checksum := chk }).1,
        if env.checksumString chk ≠ actualChk s then some .invalidChecksum else none) := by
  have h1 := not_mixed_of_uniform s h
  have h2 : ¬ ((parts s).length < 2 ∨ (parts s).length > 3) := by omega
  have h3 : ¬ (bodyWithChecksum s).length < 8 := by omega
  have h4 : ¬ ((parts s).length = 3 ∧
      ToLower ((parts s).getD 1 []) ≠ env.addressTypeString addrType) := by
    rintro ⟨h5, h6⟩
    exact h6 (hlabel h5)
  unfold actualChk
  unfold bodyStr at hbody
  unfold bodyWithChecksum at hbody h3 ⊢
  unfold parts at hparts h2 hnet hbody h3 h4 ⊢
  unfold NewFromBase32
  simp only [h1, if_false, h2, hnet, h3, hbody, hhex, htype, h4, hchk]

theorem NewFromBase32_ok_inv (env : Codec NT AT B C) (s : Str)
    (hok : (NewFromBase32 env s).2 = none) :
    (ToLower s = s ∨ ToUpper s = s) ∧
    ((parts s).length = 2 ∨ (parts s).length = 3) ∧
    8 ≤ (bodyWithChecksum s).length := by
  by_cases h1 : ToLower s ≠ s ∧ ToUpper s ≠ s
  · rw [NewFromBase32_mixed env s h1] at hok
    simp at hok
  have hu : ToLower s = s ∨ ToUpper s = s := by
    by_contra hc
    push_neg at hc
    exact h1 hc
  by_cases h2 : (parts s).length < 2 ∨ (parts s).length > 3
  · rw [NewFromBase32_format env s hu h2] at hok
    simp at hok
  have hp : (parts s).length = 2 ∨ (parts s).length = 3 := by omega
  refine ⟨hu, hp, ?_⟩
  by_contra h3
  cases hn : env.NewNetowrkType ((parts s).getD 0 []) with
  | mk nt e =>
    cases e with
    | some err =>
      rw [NewFromBase32_network env s hu hp nt err hn] at hok
      simp at hok
    | none =>
      rw [NewFromBase32_short env s hu hp nt hn (by omega)] at hok
      simp at hok

theorem NewFromBase32_mixed_iff (env : Codec NT AT B C) (s : Str) :
    (NewFromBase32 env s).2 = some .mixedCase ↔ (ToLower s ≠ s ∧ ToUpper s ≠ s) := by
  constructor
  · intro h
    by_contra h1
    unfold NewFromBase32 at h
    simp only [h1, if_false] at h
    revert h
    repeat' split
    all_goals simp
  · intro h
    rw [NewFromBase32_mixed env s h]

theorem parts_length (s : Str) : (parts s).length = s.count ':' + 1 := by
  unfold parts
  rw [Split_length, count_colon_ToLower]

end

/-! ## `setCache`, `NewFromBytes`, `CompleteByNetworkID` -/

section
variable {NT AT B C : Type}

theorem setCache_ok (env : Codec NT AT B C) (a : Address NT AT B C)
    (v : Nat) (hexAddress : Bytes) (hhex : env.ToHexAddress a.body = (v, hexAddress, none))
    (id : Nat) (hid : env.ToNetworkID a.networkType = (id, none)) :
    setCache env a = ({ a with hex := hexAddress, networkID := id }, none) := by
  unfold setCache
  simp only [hhex, hid]

theorem setCache_unresolved (env : Codec NT AT B C) (a : Address NT AT B C)
    (v : Nat) (hexAddress : Bytes) (hhex : env.ToHexAddress a.body = (v, hexAddress, none))
    (hid : (env.ToNetworkID a.networkType).2 ≠ none) :
    (setCache env a).1 = { a with hex := hexAddress } := by
  unfold setCache
  simp only [hhex]
  cases h : env.ToNetworkID a.networkType with
  | mk id e =>
    cases e with
    | none => rw [h] at hid; exact absurd rfl hid
    | some err => rfl

theorem CompleteByNetworkID_unresolved (env : Codec NT AT B C) (a : Address NT AT B C)
    (networkID : Nat)
    (h : (env.ToNetworkID a.networkType).2 ≠ none ∨ (env.ToNetworkID a.networkType).1 = 0) :
    (CompleteByNetworkID env (some a) networkID).1 =
      some { a with
        networkType := env.NewNetworkTypeByID networkID
        checksum := (env.CalcChecksum (env.NewNetworkTypeByID networkID) a.body).1 } := by
  unfold CompleteByNetworkID
  simp only
  rw [if_pos h]
  cases hc : env.CalcChecksum (env.NewNetworkTypeByID networkID) a.body with
  | mk chk e2 =>
    cases e2 <;> rfl

theorem CompleteByNetworkID_resolved (env : Codec NT AT B C) (a : Address NT AT B C)
    (networkID : Nat) (id : Nat) (hid : id ≠ 0)
    (h : env.ToNetworkID a.networkType = (id, none)) :
    CompleteByNetworkID env (some a) networkID = (some a, none) := by
  unfold CompleteByNetworkID
  simp only [h, ne_eq, not_true_eq_false, hid, or_self, if_false]

theorem CompleteByNetworkID_cache (env : Codec NT AT B C) (a : Address NT AT B C)
    (networkID : Nat) :
    ∃ a', (CompleteByNetworkID env (some a) networkID).1 = some a' ∧
      a'.networkID = a.networkID ∧ a'.hex = a.hex ∧ a'.body = a.body ∧
      a'.addressType = a.addressType := by
  unfold CompleteByNetworkID
  simp only
  split_ifs
  · cases hc : env.CalcChecksum (env.NewNetworkTypeByID networkID) a.body with
    | mk chk e2 =>
      cases e2 <;> exact ⟨_, rfl, rfl, rfl, rfl, rfl⟩
  · exact ⟨_, rfl, rfl, rfl, rfl, rfl⟩

variable [Inhabited NT] [Inhabited AT] [Inhabited B] [Inhabited C]

theorem NewFromBytes_ok (env : Codec NT AT B C) (hexAddress : Bytes) (networkID : List Nat)
    (addrType : AT) (htype : env.CalcAddressType hexAddress = (addrType, none))
    (versionByte : Nat) (hver : env.CalcVersionByte hexAddress = (versionByte, none))
    (body : B) (hbody : env.NewBodyByHexAddress versionByte hexAddress = (body, none))
    (chk : C)
    (hchk : env.CalcChecksum (env.NewNetworkTypeByID (get1stNetworkIDIfy networkID)) body
      = (chk, none)) :
    NewFromBytes env hexAddress networkID =
      ((setCache env { (Address.zero : Address NT AT B C) with
          networkType := env.NewNetworkTypeByID (get1stNetworkIDIfy networkID)
          addressType := addrType, body := body, checksum := chk }).1, none) := by
  unfold NewFromBytes
  simp only [htype, hver, hbody, hchk]

end

/-! ## Segments and suffixes -/

theorem Split_no_sep_mem (s : Str) (sep : Char) : ∀ p ∈ Split s sep, sep ∉ p := by
  induction s with
  | nil => simp [Split]
  | cons c cs ih =>
    by_cases h : c = sep
    · subst h
      rw [Split_cons_sep]
      intro p hp
      rcases List.mem_cons.mp hp with hp | hp
      · subst hp; simp
      · exact ih p hp
    · obtain ⟨q, qs, h1, h2⟩ := Split_cons_ne c cs sep h
      rw [h2]
      rw [h1] at ih
      intro p hp
      rcases List.mem_cons.mp hp with hp | hp
      · subst hp
        intro hm
        rcases List.mem_cons.mp hm with hm | hm
        · exact h hm.symm
        · exact ih q (List.mem_cons_self _ _) hm
      · exact ih p (List.mem_cons_of_mem _ hp)

theorem Split_of_no_sep (p : Str) (sep : Char) (h : sep ∉ p) : Split p sep = [p] := by
  induction p with
  | nil => rfl
  | cons c cs ih =>
    have hc : c ≠ sep := fun e => h (e ▸ List.mem_cons_self _ _)
    have hcs : sep ∉ cs := fun e => h (List.mem_cons_of_mem _ e)
    rw [Split, if_neg hc, ih hcs]

theorem Split_append_sep (p rest : Str) (sep : Char) (h : sep ∉ p) :
    Split (p ++ sep :: rest) sep = p :: Split rest sep := by
  induction p with
  | nil => exact Split_cons_sep rest sep
  | cons c cs ih =>
    have hc : c ≠ sep := fun e => h (e ▸ List.mem_cons_self _ _)
    have hcs : sep ∉ cs := fun e => h (List.mem_cons_of_mem _ e)
    rw [List.cons_append, Split, if_neg hc, ih hcs]

theorem Split_singleton_inv (s : Str) (sep : Char) (p : Str) (h : Split s sep = [p]) :
    s = p := by
  induction s generalizing p with
  | nil => simpa [Split] using h
  | cons c cs ih =>
    by_cases hc : c = sep
    · subst hc
      rw [Split_cons_sep] at h
      simp only [List.cons.injEq] at h
      exact absurd h.2 (Split_ne_nil cs c)
    · obtain ⟨q, qs, h1, h2⟩ := Split_cons_ne c cs sep hc
      rw [h2] at h
      simp only [List.cons.injEq] at h
      obtain ⟨hp, hqs⟩ := h
      subst hqs
      rw [← hp, ih q h1]

theorem Split_cons_cons_inv (s : Str) (sep : Char) (p q : Str) (ps : List Str)
    (h : Split s sep = p :: q :: ps) :
    ∃ rest, s = p ++ sep :: rest ∧ Split rest sep = q :: ps := by
  induction s generalizing p with
  | nil => simp [Split] at h
  | cons c cs ih =>
    by_cases hc : c = sep
    · subst hc
      rw [Split_cons_sep] at h
      simp only [List.cons.injEq] at h
      obtain ⟨hp, hr⟩ := h
      subst hp
      exact ⟨cs, rfl, hr⟩
    · obtain ⟨q', qs', h1, h2⟩ := Split_cons_ne c cs sep hc
      rw [h2] at h
      simp only [List.cons.injEq] at h
      obtain ⟨hp, hqs⟩ := h
      subst hqs
      obtain ⟨rest, hr1, hr2⟩ := ih q' h1
      refine ⟨rest, ?_, hr2⟩
      rw [← hp, hr1]
      rfl

/-- The shape of a split into two or three segments. -/
theorem Split_two_or_three (t : Str) (sep : Char)
    (h : (Split t sep).length = 2 ∨ (Split t sep).length = 3) :
    ∃ (front : Str) (last : Str),
      t = front ++ last ∧ sep ∉ last ∧
      (Split t sep).getD ((Split t sep).length - 1) [] = last ∧
      ∀ u : Str, sep ∉ u →
        (Split (front ++ u) sep).length = (Split t sep).length ∧
        (Split (front ++ u) sep).getD 0 [] = (Split t sep).getD 0 [] ∧
        (Split (front ++ u) sep).getD 1 [] =
          (if (Split t sep).length = 3 then (Split t sep).getD 1 [] else u) ∧
        (Split (front ++ u) sep).getD ((Split (front ++ u) sep).length - 1) [] = u := by
  have hmem := Split_no_sep_mem t sep
  rcases h with h | h
  · match hs : Split t sep, h with
    | [p0, last], _ =>
      rw [hs] at hmem
      obtain ⟨rest, hr1, hr2⟩ := Split_cons_cons_inv t sep p0 last [] hs
      have hr3 := Split_singleton_inv rest sep last hr2
      subst hr3
      have hp0 : sep ∉ p0 := hmem p0 (by simp)
      have hl : sep ∉ rest := hmem rest (by simp)
      refine ⟨p0 ++ [sep], rest, by simp [hr1], hl, by simp, ?_⟩
      intro u hu
      have : Split ((p0 ++ [sep]) ++ u) sep = [p0, u] := by
        rw [List.append_assoc, List.singleton_append, Split_append_sep p0 u sep hp0,
          Split_of_no_sep u sep hu]
      rw [this]
      simp
  · match hs : Split t sep, h with
    | [p0, p1, last], _ =>
      rw [hs] at hmem
      obtain ⟨rest, hr1, hr2⟩ := Split_cons_cons_inv t sep p0 p1 [last] hs
      obtain ⟨rest2, hr3, hr4⟩ := Split_cons_cons_inv rest sep p1 last [] hr2
      have hr5 := Split_singleton_inv rest2 sep last hr4
      subst hr5
      have hp0 : sep ∉ p0 := hmem p0 (by simp)
      have hp1 : sep ∉ p1 := hmem p1 (by simp)
      have hl : sep ∉ rest2 := hmem rest2 (by simp)
      refine ⟨p0 ++ [sep] ++ p1 ++ [sep], rest2, by simp [hr1, hr3], hl, by simp, ?_⟩
      intro u hu
      have : Split ((p0 ++ [sep] ++ p1 ++ [sep]) ++ u) sep = [p0, p1, u] := by
        have e : (p0 ++ [sep] ++ p1 ++ [sep]) ++ u = p0 ++ sep :: (p1 ++ sep :: u) := by simp
        rw [e, Split_append_sep p0 _ sep hp0, Split_append_sep p1 u sep hp1,
          Split_of_no_sep u sep hu]
      rw [this]
      simp


theorem lowerRune_inj_of_not_lower (c d : Char) (hc : ¬ isLowerLetter c)
    (hd : ¬ isLowerLetter d) (hck : c ≠ kelvinSign) (hdk : d ≠ kelvinSign)
    (h : lowerRune c = lowerRune d) : c = d := by
  have hn : (lowerRune c).toNat = (lowerRune d).toNat := by rw [h]
  by_cases h1 : isUpperLetter c <;> by_cases h2 : isUpperLetter d
  · rw [lowerRune_toNat_of_upper c h1, lowerRune_toNat_of_upper d h2] at hn
    have e : c.toNat = d.toNat := by omega
    calc c = Char.ofNat c.toNat := (Char.ofNat_toNat c).symm
      _ = Char.ofNat d.toNat := by rw [e]
      _ = d := Char.ofNat_toNat d
  · rw [lowerRune_toNat_of_upper c h1, lowerRune_eq_of_not_upper d h2 hdk] at hn
    unfold isUpperLetter at h1
    unfold isLowerLetter at hd
    omega
  · rw [lowerRune_eq_of_not_upper c h1 hck, lowerRune_toNat_of_upper d h2] at hn
    unfold isUpperLetter at h2
    unfold isLowerLetter at hc
    omega
  · rw [lowerRune_eq_of_not_upper c h1 hck, lowerRune_eq_of_not_upper d h2 hdk] at h
    exact h

theorem ToLower_inj_of_upper (a b : Str) (ha : ToUpper a = a) (hb : ToUpper b = b)
    (hka : ∀ c ∈ a, c ≠ kelvinSign) (hkb : ∀ c ∈ b, c ≠ kelvinSign)
    (h : ToLower a = ToLower b) : a = b := by
  rw [ToUpper_eq_iff] at ha hb
  induction a generalizing b with
  | nil =>
    cases b with
    | nil => rfl
    | cons d ds => simp [ToLower] at h
  | cons c cs ih =>
    cases b with
    | nil => simp [ToLower] at h
    | cons d ds =>
      simp only [ToLower, List.map_cons, List.cons.injEq] at h
      have hcd := lowerRune_inj_of_not_lower c d (ha c (List.mem_cons_self _ _))
        (hb d (List.mem_cons_self _ _)) (hka c (List.mem_cons_self _ _))
        (hkb d (List.mem_cons_self _ _)) h.1
      have := ih ds (fun x hx => ha x (List.mem_cons_of_mem _ hx))
        (fun x hx => hb x (List.mem_cons_of_mem _ hx))
        (fun x hx => hka x (List.mem_cons_of_mem _ hx))
        (fun x hx => hkb x (List.mem_cons_of_mem _ hx)) h.2
      rw [hcd, this]

theorem ToLower_take (s : Str) (n : Nat) : ToLower (s.take n) = (ToLower s).take n := by
  simp [ToLower, List.map_take]

theorem ToLower_drop (s : Str) (n : Nat) : ToLower (s.drop n) = (ToLower s).drop n := by
  simp [ToLower, List.map_drop]

theorem suffix_of_append_eq {α : Type} (a x b u : List α) (h : a ++ x = b ++ u)
    (hlen : u.length ≤ x.length) : ∃ m, x = m ++ u := by
  rcases List.append_eq_append_iff.mp h with ⟨a', _, h2⟩ | ⟨c', _, h2⟩
  · exact ⟨a', h2⟩
  · have : c' = [] := by
      have hl := congrArg List.length h2
      simp only [List.length_append] at hl
      exact List.eq_nil_of_length_eq_zero (by omega)
    subst this
    exact ⟨[], by simpa using h2.symm⟩

/-- Two uniformly cased strings with a common front that holds a letter and
with ASCII tails whose lowercased forms are equal have equal tails. -/
theorem tail_eq_of_ToLower_eq (pre a b : Str)
    (hletter : ∃ c ∈ pre, isUpperLetter c ∨ isLowerLetter c)
    (ha : ToLower (pre ++ a) = pre ++ a ∨ ToUpper (pre ++ a) = pre ++ a)
    (hb : ToLower (pre ++ b) = pre ++ b ∨ ToUpper (pre ++ b) = pre ++ b)
    (hka : ∀ c ∈ a, isASCII c) (hkb : ∀ c ∈ b, isASCII c)
    (h : ToLower a = ToLower b) : a = b := by
  obtain ⟨c, hc, hcl⟩ := hletter
  rcases hcl with hcu | hcl
  · -- an upper-case letter in the front: both strings are upper case
    have hau : ToUpper (pre ++ a) = pre ++ a := by
      rcases ha with ha | ha
      · exact absurd hcu ((ToLower_eq_iff _).mp ha c (List.mem_append_left _ hc)).1
      · exact ha
    have hbu : ToUpper (pre ++ b) = pre ++ b := by
      rcases hb with hb | hb
      · exact absurd hcu ((ToLower_eq_iff _).mp hb c (List.mem_append_left _ hc)).1
      · exact hb
    rw [ToUpper_eq_iff] at hau hbu
    exact ToLower_inj_of_upper a b
      ((ToUpper_eq_iff a).mpr fun x hx => hau x (List.mem_append_right _ hx))
      ((ToUpper_eq_iff b).mpr fun x hx => hbu x (List.mem_append_right _ hx))
      (fun x hx => ne_kelvinSign_of_isASCII x (hka x hx))
      (fun x hx => ne_kelvinSign_of_isASCII x (hkb x hx)) h
  · have hal : ToLower (pre ++ a) = pre ++ a := by
      rcases ha with ha | ha
      · exact ha
      · exact absurd hcl ((ToUpper_eq_iff _).mp ha c (List.mem_append_left _ hc))
    have hbl : ToLower (pre ++ b) = pre ++ b := by
      rcases hb with hb | hb
      · exact hb
      · exact absurd hcl ((ToUpper_eq_iff _).mp hb c (List.mem_append_left _ hc))
    rw [ToLower_eq_iff] at hal hbl
    have h1 : ToLower a = a :=
      (ToLower_eq_iff a).mpr fun x hx => hal x (List.mem_append_right _ hx)
    have h2 : ToLower b = b :=
      (ToLower_eq_iff b).mpr fun x hx => hbl x (List.mem_append_right _ hx)
    rw [← h1, ← h2, h]

/-! ## Replacing the checksum suffix -/

section
variable {NT AT B C : Type} [Inhabited NT] [Inhabited AT] [Inhabited B] [Inhabited C]

theorem take_drop_last8 (l u : Str) (hu : u.length = 8) :
    (l ++ u).take ((l ++ u).length - 8) = l ∧ (l ++ u).drop ((l ++ u).length - 8) = u := by
  have h : (l ++ u).length - 8 = l.length := by simp [hu]
  rw [h]
  exact ⟨List.take_left' rfl, List.drop_left' rfl⟩

theorem NewFromBase32_suffix_change (env : Codec NT AT B C) (s : Str)
    (hcase : ToLower s = s ∨ ToUpper s = s)
    (hparts : (parts s).length = 2 ∨ (parts s).length = 3)
    (nt : NT) (hnet : env.NewNetowrkType ((parts s).getD 0 []) = (nt, none))
    (hlen : 8 ≤ (bodyWithChecksum s).length)
    (body : B) (hbody : env.NewBodyByString (bodyStr s) = (body, none))
    (v : Nat) (hexAddress : Bytes) (hhex : env.ToHexAddress body = (v, hexAddress, none))
    (addrType : AT) (htype : env.CalcAddressType hexAddress = (addrType, none))
    (hlabel : (parts s).length = 3 →
      ToLower ((parts s).getD 1 []) = env.addressTypeString addrType)
    (chk : C) (hchk : env.CalcChecksum nt body = (chk, none))
    (hacc : actualChk s = env.checksumString chk)
    (hascii : ∀ c ∈ s, isASCII c)
    (hletter : ∃ c ∈ s.take (s.length - 8), isUpperLetter c ∨ isLowerLetter c)
    (suf' : Str) (hlen' : suf'.length = 8) (hascii' : ∀ c ∈ suf', isASCII c)
    (hne : suf' ≠ s.drop (s.length - 8)) :
    (NewFromBase32 env (s.take (s.length - 8) ++ suf')).2 ≠ none := by
  intro hok
  -- the shape of the accepted string
  obtain ⟨front, last, ht, hlast_ns, hlast, hrep⟩ := Split_two_or_three (ToLower s) ':' hparts
  have hbwc : bodyWithChecksum s = last := hlast
  rw [hbwc] at hlen
  obtain ⟨last0, c0, hl0, hc0⟩ : ∃ last0 c0 : Str, last = last0 ++ c0 ∧ c0.length = 8 :=
    ⟨last.take (last.length - 8), last.drop (last.length - 8),
      (List.take_append_drop _ _).symm, by simp; omega⟩
  have hL : ToLower s = (front ++ last0) ++ c0 := by rw [ht, hl0, List.append_assoc]
  have hslen : s.length = (front ++ last0).length + 8 := by
    rw [← ToLower_length s, hL, List.length_append, hc0]
  have hpre : ToLower (s.take (s.length - 8)) = front ++ last0 := by
    rw [ToLower_take, hL]
    exact List.take_left' (by omega)
  have hsuf : ToLower (s.drop (s.length - 8)) = c0 := by
    rw [ToLower_drop, hL]
    exact List.drop_left' (by omega)
  have hbody_s : bodyStr s = last0 := by
    unfold bodyStr
    rw [hbwc, hl0]
    exact (take_drop_last8 last0 c0 hc0).1
  have hact_s : actualChk s = c0 := by
    unfold actualChk
    rw [hbwc, hl0]
    exact (take_drop_last8 last0 c0 hc0).2
  -- the changed string
  obtain ⟨hcase', hparts', hlen8'⟩ := NewFromBase32_ok_inv env _ hok
  have hL' : ToLower (s.take (s.length - 8) ++ suf') = front ++ (last0 ++ ToLower suf') := by
    rw [ToLower_append, hpre, List.append_assoc]
  have hsl' : (ToLower suf').length = 8 := by rw [ToLower_length, hlen']
  -- its checksum suffix has no colon
  have hns : ':' ∉ ToLower suf' := by
    obtain ⟨front', last', ht', hlast_ns', hlast', _⟩ :=
      Split_two_or_three (ToLower (s.take (s.length - 8) ++ suf')) ':' hparts'
    have hb' : bodyWithChecksum (s.take (s.length - 8) ++ suf') = last' := hlast'
    rw [hb'] at hlen8'
    have e : front' ++ last' = (front ++ last0) ++ ToLower suf' := by
      rw [← ht', hL', List.append_assoc]
    obtain ⟨m, hm⟩ := suffix_of_append_eq front' last' (front ++ last0) (ToLower suf') e
      (by omega)
    intro hmem
    exact hlast_ns' (hm ▸ List.mem_append_right _ hmem)
  have hns0 : ':' ∉ last0 := fun hmem =>
    hlast_ns (hl0 ▸ List.mem_append_left _ hmem)
  have hnsu : ':' ∉ last0 ++ ToLower suf' := by
    intro hmem
    rcases List.mem_append.mp hmem with h | h
    · exact hns0 h
    · exact hns h
  obtain ⟨r1, r2, r3, r4⟩ := hrep (last0 ++ ToLower suf') hnsu
  rw [← hL'] at r1 r2 r3 r4
  have hp' : parts (s.take (s.length - 8) ++ suf') =
      Split (ToLower (s.take (s.length - 8) ++ suf')) ':' := rfl
  have hpl : (parts (s.take (s.length - 8) ++ suf')).length = (parts s).length := r1
  have hbwc' : bodyWithChecksum (s.take (s.length - 8) ++ suf') = last0 ++ ToLower suf' := r4
  have hbody' : bodyStr (s.take (s.length - 8) ++ suf') = last0 := by
    unfold bodyStr
    rw [hbwc']
    exact (take_drop_last8 last0 _ hsl').1
  have hact' : actualChk (s.take (s.length - 8) ++ suf') = ToLower suf' := by
    unfold actualChk
    rw [hbwc']
    exact (take_drop_last8 last0 _ hsl').2
  have hres := NewFromBase32_checked env (s.take (s.length - 8) ++ suf') hcase'
    (by rw [hpl]; exact hparts) nt (by rw [hp', r2]; exact hnet)
    (by rw [hbwc', List.length_append, hsl']; omega) body (by rw [hbody', ← hbody_s]; exact hbody)
    v hexAddress hhex addrType htype
    (by
      intro h3
      rw [hpl] at h3
      have r3' : (parts (s.take (s.length - 8) ++ suf')).getD 1 [] = (parts s).getD 1 [] := by
        have h3' : (Split (ToLower s) ':').length = 3 := h3
        rw [hp', r3, if_pos h3']
        rfl
      rw [r3']
      exact hlabel h3)
    chk hchk
  rw [hres, hact'] at hok
  have heq : env.checksumString chk = ToLower suf' := by
    by_contra hc
    simp [hc] at hok
  -- equal lowercased suffixes, hence equal suffixes
  have hlow : ToLower suf' = ToLower (s.drop (s.length - 8)) := by
    rw [hsuf, ← hact_s, hacc, heq]
  have hs : s.take (s.length - 8) ++ s.drop (s.length - 8) = s := List.take_append_drop _ _
  exact hne (tail_eq_of_ToLower_eq (s.take (s.length - 8)) suf' (s.drop (s.length - 8))
    hletter hcase' (by rw [hs]; exact hcase) hascii'
    (fun x hx => hascii x (List.mem_of_mem_drop hx)) hlow)

end

/-! ## Parsing the text of a consistent address -/

/-- An address whose derived and cached fields agree with its network type and
body, and whose text forms are lower case and of the expected shape, parses
back from its non-verbose text to itself. -/
theorem NewFromBase32_GetBase32Address {NT AT B C : Type}
    [Inhabited NT] [Inhabited AT] [Inhabited B] [Inhabited C]
    (env : Codec NT AT B C) (a : Address NT AT B C)
    (hlower : ToLower (GetBase32Address env a) = GetBase32Address env a)
    (hnt_ns : ':' ∉ env.networkTypeString a.networkType)
    (hbody_ns : ':' ∉ env.bodyString a.body)
    (hchk_ns : ':' ∉ env.checksumString a.checksum)
    (hchk_len : (env.checksumString a.checksum).length = 8)
    (hnet : env.NewNetowrkType (env.networkTypeString a.networkType) = (a.networkType, none))
    (hbody : env.NewBodyByString (env.bodyString a.body) = (a.body, none))
    (v : Nat) (hhex : env.ToHexAddress a.body = (v, a.hex, none))
    (htype : env.CalcAddressType a.hex = (a.addressType, none))
    (hchk : env.CalcChecksum a.networkType a.body = (a.checksum, none))
    (hid : env.ToNetworkID a.networkType = (a.networkID, none) ∨
      ((env.ToNetworkID a.networkType).2 ≠ none ∧ a.networkID = 0)) :
    NewFromBase32 env (GetBase32Address env a) = (a, none) := by
  have hns : ':' ∉ env.bodyString a.body ++ env.checksumString a.checksum := by
    intro hm
    rcases List.mem_append.mp hm with h | h
    · exact hbody_ns h
    · exact hchk_ns h
  have hsplit : parts (GetBase32Address env a) =
      [env.networkTypeString a.networkType,
        env.bodyString a.body ++ env.checksumString a.checksum] := by
    unfold parts
    rw [hlower]
    unfold GetBase32Address
    rw [List.append_assoc, List.append_assoc, List.singleton_append,
      Split_append_sep _ _ ':' hnt_ns, Split_of_no_sep _ ':' hns]
  have hbwc : bodyWithChecksum (GetBase32Address env a) =
      env.bodyString a.body ++ env.checksumString a.checksum := by
    unfold bodyWithChecksum
    rw [hsplit]
    rfl
  have hbs : bodyStr (GetBase32Address env a) = env.bodyString a.body := by
    unfold bodyStr
    rw [hbwc]
    exact (take_drop_last8 _ _ hchk_len).1
  have hac : actualChk (GetBase32Address env a) = env.checksumString a.checksum := by
    unfold actualChk
    rw [hbwc]
    exact (take_drop_last8 _ _ hchk_len).2
  rw [NewFromBase32_checked env (GetBase32Address env a) (Or.inl hlower)
    (by rw [hsplit]; exact Or.inl rfl) a.networkType (by rw [hsplit]; exact hnet)
    (by rw [hbwc, List.length_append, hchk_len]; omega) a.body (by rw [hbs]; exact hbody)
    v a.hex hhex a.addressType htype (by rw [hsplit]; intro h; simp at h)
    a.checksum hchk, hac]
  simp only [ne_eq, not_true_eq_false, if_false]
  rcases hid with hid | ⟨hid, h0⟩
  · rw [setCache_ok env { (Address.zero : Address NT AT B C) with
      networkType := a.networkType, body := a.body, addressType := a.addressType,
      checksum := a.checksum } v a.hex hhex a.networkID hid]
  · rw [setCache_unresolved env { (Address.zero : Address NT AT B C) with
      networkType := a.networkType, body := a.body, addressType := a.addressType,
      checksum := a.checksum } v a.hex hhex hid]
    cases a
    simp only [Address.zero] at h0 ⊢
    subst h0
    rfl

/-! ## Addresses returned by the constructors -/

section
variable {NT AT B C : Type}

theorem setCache_spec (env : Codec NT AT B C) (x : Address NT AT B C) (hx : Bytes)
    (h : (env.ToHexAddress x.body).2 = (hx, none)) :
    (setCache env x).1 =
      { x with
        hex := hx
        networkID := if (env.ToNetworkID x.networkType).2 = none
          then (env.ToNetworkID x.networkType).1 else x.networkID } := by
  rcases hh : env.ToHexAddress x.body with ⟨v, hx', e⟩
  rw [hh] at h
  simp only [Prod.mk.injEq] at h
  obtain ⟨h1, h2⟩ := h
  subst h1 h2
  rcases hn : env.ToNetworkID x.networkType with ⟨id, _ | e⟩
  · unfold setCache
    simp only [hh, hn, if_true]
  · unfold setCache
    simp only [hh, hn]
    simp

theorem setCache_frame (env : Codec NT AT B C) (x : Address NT AT B C) :
    ∃ hx id, (setCache env x).1 = { x with hex := hx, networkID := id } := by
  rcases hh : env.ToHexAddress x.body with ⟨v, hx', _ | e⟩
  · rcases hn : env.ToNetworkID x.networkType with ⟨id, _ | e⟩
    · exact ⟨hx', id, by unfold setCache; simp only [hh, hn]⟩
    · exact ⟨hx', x.networkID, by unfold setCache; simp only [hh, hn]⟩
  · exact ⟨x.hex, x.networkID, by unfold setCache; simp only [hh]⟩

theorem setCache_derived (env : Codec NT AT B C) (x : Address NT AT B C) (hx : Bytes)
    (h0 : x.networkID = 0)
    (hhex : (env.ToHexAddress x.body).2 = (hx, none))
    (htype : env.CalcAddressType hx = (x.addressType, none))
    (hchk : env.CalcChecksum x.networkType x.body = (x.checksum, none)) :
    Derived env (setCache env x).1 := by
  rw [setCache_spec env x hx hhex]
  refine ⟨hhex, htype, hchk, ?_⟩
  rcases hn : env.ToNetworkID x.networkType with ⟨id, _ | e⟩
  · left
    simp
  · right
    simp [h0]

end

section
variable {NT AT B C : Type} [Inhabited NT] [Inhabited AT] [Inhabited B] [Inhabited C]

theorem NewFromBytes_inv (env : Codec NT AT B C) (b : Bytes) (ids : List Nat)
    (a : Address NT AT B C) (h : NewFromBytes env b ids = (a, none)) :
    a.networkType = env.NewNetworkTypeByID (get1stNetworkIDIfy ids) ∧
    env.CalcAddressType b = (a.addressType, none) ∧
    env.CalcChecksum a.networkType a.body = (a.checksum, none) ∧
    a = (setCache env { a with hex := [], networkID := 0 }).1 := by
  unfold NewFromBytes at h
  rcases h1 : env.CalcAddressType b with ⟨t, _ | e⟩ <;> simp only [h1] at h
  · rcases h2 : env.CalcVersionByte b with ⟨vb, _ | e⟩ <;> simp only [h2] at h
    · rcases h3 : env.NewBodyByHexAddress vb b with ⟨body, _ | e⟩ <;> simp only [h3] at h
      · rcases h4 : env.CalcChecksum (env.NewNetworkTypeByID (get1stNetworkIDIfy ids)) body
          with ⟨chk, _ | e⟩ <;> simp only [h4] at h
        · simp only [Prod.mk.injEq, and_true] at h
          obtain ⟨hx, id, hf⟩ := setCache_frame env
            { networkType := env.NewNetworkTypeByID (get1stNetworkIDIfy ids), addressType := t,
              body := body, checksum := chk, hex := (Address.zero : Address NT AT B C).hex,
              networkID := (Address.zero : Address NT AT B C).networkID }
          have ha := h
          rw [hf] at ha
          subst ha
          exact ⟨rfl, rfl, h4, h.symm⟩
        · simp at h
      · simp at h
    · simp at h
  · simp at h

theorem NewFromBytes_derived (env : Codec NT AT B C) (b : Bytes) (ids : List Nat)
    (a : Address NT AT B C) (h : NewFromBytes env b ids = (a, none))
    (hlossless : (env.ToHexAddress a.body).2 = (b, none)) :
    Derived env a := by
  obtain ⟨_, h2, h3, h4⟩ := NewFromBytes_inv env b ids a h
  rw [h4]
  exact setCache_derived env { a with hex := [], networkID := 0 } b rfl hlossless h2 h3

/-- The cached fields of an address returned by `NewFromBytes` whose body
unpacks: the cached hex is the payload of the body, and the cached network id
is the id of the network type, or 0 when the network type has no id. -/
theorem NewFromBytes_cache (env : Codec NT AT B C) (b : Bytes) (ids : List Nat)
    (a : Address NT AT B C) (h : NewFromBytes env b ids = (a, none))
    (hhex : (env.ToHexAddress a.body).2.2 = none) :
    (env.ToHexAddress a.body).2 = (a.hex, none) ∧
    (env.ToNetworkID a.networkType = (a.networkID, none) ∨
      ((env.ToNetworkID a.networkType).2 ≠ none ∧ a.networkID = 0)) := by
  obtain ⟨_, _, _, h4⟩ := NewFromBytes_inv env b ids a h
  have hp : (env.ToHexAddress a.body).2 = ((env.ToHexAddress a.body).2.1, none) :=
    Prod.ext rfl hhex
  have hs := setCache_spec env { a with hex := [], networkID := 0 }
    (env.ToHexAddress a.body).2.1 hp
  rw [hs] at h4
  have hh : a.hex = (env.ToHexAddress a.body).2.1 := congrArg Address.hex h4
  have hn : a.networkID = if (env.ToNetworkID a.networkType).2 = none
      then (env.ToNetworkID a.networkType).1 else 0 := congrArg Address.networkID h4
  refine ⟨by rw [hh]; exact hp, ?_⟩
  rcases hid : env.ToNetworkID a.networkType with ⟨id, _ | e⟩
  · left
    rw [hn, hid]
    simp
  · right
    rw [hn, hid]
    simp

theorem NewFromBase32_body_err (env : Codec NT AT B C) (s : Str)
    (h : ToLower s = s ∨ ToUpper s = s)
    (hparts : (parts s).length = 2 ∨ (parts s).length = 3)
    (nt : NT) (hnet : env.NewNetowrkType ((parts s).getD 0 []) = (nt, none))
    (hlen : 8 ≤ (bodyWithChecksum s).length)
    (body : B) (e : Error) (hbody : env.NewBodyByString (bodyStr s) = (body, some e)) :
    (NewFromBase32 env s).2 = some (.wrapf .createBody e) := by
  have h1 := not_mixed_of_uniform s h
  have h2 : ¬ ((parts s).length < 2 ∨ (parts s).length > 3) := by omega
  have h3 : ¬ (bodyWithChecksum s).length < 8 := by omega
  unfold bodyStr at hbody
  unfold bodyWithChecksum at hbody h3
  unfold parts at h2 hnet hbody h3
  unfold NewFromBase32
  simp only [h1, if_false, h2, hnet, h3, hbody]

theorem NewFromBase32_hex_err (env : Codec NT AT B C) (s : Str)
    (h : ToLower s = s ∨ ToUpper s = s)
    (hparts : (parts s).length = 2 ∨ (parts s).length = 3)
    (nt : NT) (hnet : env.NewNetowrkType ((parts s).getD 0 []) = (nt, none))
    (hlen : 8 ≤ (bodyWithChecksum s).length)
    (body : B) (hbody : env.NewBodyByString (bodyStr s) = (body, none))
    (v : Nat) (hexAddress : Bytes) (e : Error)
    (hhex : env.ToHexAddress body = (v, hexAddress, some e)) :
    (NewFromBase32 env s).2 = some (.wrapf .hexAddress e) := by
  have h1 := not_mixed_of_uniform s h
  have h2 : ¬ ((parts s).length < 2 ∨ (parts s).length > 3) := by omega
  have h3 : ¬ (bodyWithChecksum s).length < 8 := by omega
  unfold bodyStr at hbody
  unfold bodyWithChecksum at hbody h3
  unfold parts at h2 hnet hbody h3
  unfold NewFromBase32
  simp only [h1, if_false, h2, hnet, h3, hbody, hhex]

theorem NewFromBase32_type_err (env : Codec NT AT B C) (s : Str)
    (h : ToLower s = s ∨ ToUpper s = s)
    (hparts : (parts s).length = 2 ∨ (parts s).length = 3)
    (nt : NT) (hnet : env.NewNetowrkType ((parts s).getD 0 []) = (nt, none))
    (hlen : 8 ≤ (bodyWithChecksum s).length)
    (body : B) (hbody : env.NewBodyByString (bodyStr s) = (body, none))
    (v : Nat) (hexAddress : Bytes) (hhex : env.ToHexAddress body = (v, hexAddress, none))
    (addrType : AT) (e : Error) (htype : env.CalcAddressType hexAddress = (addrType, some e)) :
    (NewFromBase32 env s).2 = some (.wrapf .addressType e) := by
  have h1 := not_mixed_of_uniform s h
  have h2 : ¬ ((parts s).length < 2 ∨ (parts s).length > 3) := by omega
  have h3 : ¬ (bodyWithChecksum s).length < 8 := by omega
  unfold bodyStr at hbody
  unfold bodyWithChecksum at hbody h3
  unfold parts at h2 hnet hbody h3
  unfold NewFromBase32
  simp only [h1, if_false, h2, hnet, h3, hbody, hhex, htype]

theorem NewFromBase32_checksum_err (env : Codec NT AT B C) (s : Str)
    (h : ToLower s = s ∨ ToUpper s = s)
    (hparts : (parts s).length = 2 ∨ (parts s).length = 3)
    (nt : NT) (hnet : env.NewNetowrkType ((parts s).getD 0 []) = (nt, none))
    (hlen : 8 ≤ (bodyWithChecksum s).length)
    (body : B) (hbody : env.NewBodyByString (bodyStr s) = (body, none))
    (v : Nat) (hexAddress : Bytes) (hhex : env.ToHexAddress body = (v, hexAddress, none))
    (addrType : AT) (htype : env.CalcAddressType hexAddress = (addrType, none))
    (hlabel : (parts s).length = 3 →
      ToLower ((parts s).getD 1 []) = env.addressTypeString addrType)
    (chk : C) (e : Error) (hchk : env.CalcChecksum nt body = (chk, some e)) :
    (NewFromBase32 env s).2 = some (.wrapf .checksum e) := by
  have h1 := not_mixed_of_uniform s h
  have h2 : ¬ ((parts s).length < 2 ∨ (parts s).length > 3) := by omega
  have h3 : ¬ (bodyWithChecksum s).length < 8 := by omega
  have h4 : ¬ ((parts s).length = 3 ∧
      ToLower ((parts s).getD 1 []) ≠ env.addressTypeString addrType) := by
    rintro ⟨h5, h6⟩
    exact h6 (hlabel h5)
  unfold bodyStr at hbody
  unfold bodyWithChecksum at hbody h3
  unfold parts at h2 hnet hbody h3 h4
  unfold NewFromBase32
  simp only [h1, if_false, h2, hnet, h3, hbody, hhex, htype, h4, hchk]

/-- The stages passed by an input that `NewFromBase32` accepts. -/
theorem NewFromBase32_ok_stages (env : Codec NT AT B C) (s : Str)
    (hok : (NewFromBase32 env s).2 = none) :
    (ToLower s = s ∨ ToUpper s = s) ∧
    ((parts s).length = 2 ∨ (parts s).length = 3) ∧
    8 ≤ (bodyWithChecksum s).length ∧
    ∃ (nt : NT) (body : B) (v : Nat) (hexAddress : Bytes) (addrType : AT) (chk : C),
      env.NewNetowrkType ((parts s).getD 0 []) = (nt, none) ∧
      env.NewBodyByString (bodyStr s) = (body, none) ∧
      env.ToHexAddress body = (v, hexAddress, none) ∧
      env.CalcAddressType hexAddress = (addrType, none) ∧
      ((parts s).length = 3 →
        ToLower ((parts s).getD 1 []) = env.addressTypeString addrType) ∧
      env.CalcChecksum nt body = (chk, none) := by
  obtain ⟨hu, hp, hl⟩ := NewFromBase32_ok_inv env s hok
  refine ⟨hu, hp, hl, ?_⟩
  rcases h1 : env.NewNetowrkType ((parts s).getD 0 []) with ⟨nt, _ | e⟩
  swap
  · rw [NewFromBase32_network env s hu hp nt e h1] at hok
    simp at hok
  rcases h2 : env.NewBodyByString (bodyStr s) with ⟨body, _ | e⟩
  swap
  · rw [NewFromBase32_body_err env s hu hp nt h1 hl body e h2] at hok
    simp at hok
  rcases h3 : env.ToHexAddress body with ⟨v, hx, _ | e⟩
  swap
  · rw [NewFromBase32_hex_err env s hu hp nt h1 hl body h2 v hx e h3] at hok
    simp at hok
  rcases h4 : env.CalcAddressType hx with ⟨t, _ | e⟩
  swap
  · rw [NewFromBase32_type_err env s hu hp nt h1 hl body h2 v hx h3 t e h4] at hok
    simp at hok
  have hlab : (parts s).length = 3 →
      ToLower ((parts s).getD 1 []) = env.addressTypeString t := by
    intro h3'
    by_contra hne
    rw [NewFromBase32_label env s hu h3' nt h1 hl body h2 v hx h3 t h4 hne] at hok
    simp at hok
  rcases h5 : env.CalcChecksum nt body with ⟨chk, _ | e⟩
  swap
  · rw [NewFromBase32_checksum_err env s hu hp nt h1 hl body h2 v hx h3 t h4 hlab chk e h5]
      at hok
    simp at hok
  exact ⟨nt, body, v, hx, t, chk, rfl, rfl, h3, h4, hlab, h5⟩

theorem NewFromBase32_derived (env : Codec NT AT B C) (s : Str)
    (a : Address NT AT B C) (h : NewFromBase32 env s = (a, none)) :
    Derived env a := by
  have hok : (NewFromBase32 env s).2 = none := by rw [h]
  obtain ⟨hu, hp, hl, nt, body, v, hx, t, chk, h1, h2, h3, h4, hlab, h5⟩ :=
    NewFromBase32_ok_stages env s hok
  rw [NewFromBase32_checked env s hu hp nt h1 hl body h2 v hx h3 t h4 hlab chk h5] at h
  simp only [Prod.mk.injEq] at h
  rw [← h.1]
  exact setCache_derived env _ hx rfl (by rw [h3]) h4 h5

end

/-! ## Parsing the verbose text of a consistent address -/

theorem upperRune_not_lower (c : Char) : ¬ isLowerLetter (upperRune c) := by
  by_cases h : isLowerLetter c
  · have h' := h
    unfold isLowerLetter at h' ⊢
    rw [upperRune_toNat_of_lower c h]
    omega
  · rw [upperRune_eq_of_not_lower c h]; exact h

theorem ToUpper_idem (s : Str) : ToUpper (ToUpper s) = ToUpper s := by
  rw [ToUpper_eq_iff]
  intro c hc
  simp only [ToUpper, List.mem_map] at hc
  obtain ⟨d, _, rfl⟩ := hc
  exact upperRune_not_lower d

theorem lowerRune_upperRune (c : Char) (h : ¬ isUpperLetter c) (hk : c ≠ kelvinSign) :
    lowerRune (upperRune c) = c := by
  by_cases hl : isLowerLetter c
  · have hu : isUpperLetter (upperRune c) := by
      have hl' := hl
      unfold isLowerLetter at hl'
      unfold isUpperLetter
      rw [upperRune_toNat_of_lower c hl]
      omega
    have e : (lowerRune (upperRune c)).toNat = c.toNat := by
      rw [lowerRune_toNat_of_upper _ hu, upperRune_toNat_of_lower c hl]
      unfold isLowerLetter at hl
      omega
    calc lowerRune (upperRune c) = Char.ofNat (lowerRune (upperRune c)).toNat :=
          (Char.ofNat_toNat _).symm
      _ = Char.ofNat c.toNat := by rw [e]
      _ = c := Char.ofNat_toNat c
  · rw [upperRune_eq_of_not_lower c hl, lowerRune_eq_of_not_upper c h hk]

theorem ToLower_ToUpper (s : Str) (h : ToLower s = s) : ToLower (ToUpper s) = s := by
  rw [ToLower_eq_iff] at h
  induction s with
  | nil => rfl
  | cons c cs ih =>
    simp only [ToLower, ToUpper, List.map_cons, List.cons.injEq] at ih ⊢
    exact ⟨lowerRune_upperRune c (h c (List.mem_cons_self _ _)).1
        (h c (List.mem_cons_self _ _)).2,
      ih (fun x hx => h x (List.mem_cons_of_mem _ hx))⟩

section
variable {NT AT B C : Type}

theorem setCache_of_derived (env : Codec NT AT B C) (a : Address NT AT B C)
    (hd : Derived env a) (hx0 : Bytes) :
    (setCache env { a with hex := hx0, networkID := 0 }).1 = a := by
  obtain ⟨hhex, _, _, hid⟩ := hd
  rw [setCache_spec env { a with hex := hx0, networkID := 0 } a.hex hhex]
  cases a with
  | mk nt t body chk hx id =>
    simp only at hid ⊢
    rcases hid with hid | ⟨hid, h0⟩
    · simp [hid]
    · subst h0
      simp [hid]

end

section
variable {NT AT B C : Type} [Inhabited NT] [Inhabited AT] [Inhabited B] [Inhabited C]

/-- An address whose derived and cached fields agree with the codec and whose
text forms are canonical parses back from its verbose upper-case text. -/
theorem NewFromBase32_String (env : Codec NT AT B C) (a : Address NT AT B C)
    (hd : Derived env a) (ht : CanonicalText env a) :
    NewFromBase32 env (Address.String env a) = (a, none) := by
  obtain ⟨⟨l1, l2, l3, l4⟩, ⟨c1, c2, c3, c4⟩, hlen, hnet, hbody⟩ := ht
  have hd' := hd
  obtain ⟨hhex, htype, hchk, _⟩ := hd'
  have hlow : ToLower (env.networkTypeString a.networkType ++ [':'] ++
      env.addressTypeString a.addressType ++ [':'] ++ env.bodyString a.body ++
      env.checksumString a.checksum) =
      env.networkTypeString a.networkType ++ [':'] ++
      env.addressTypeString a.addressType ++ [':'] ++ env.bodyString a.body ++
      env.checksumString a.checksum := by
    have hc : ToLower [':'] = [':'] := by decide
    simp only [ToLower_append, l1, l2, l3, l4, hc]
  have hns : ':' ∉ env.bodyString a.body ++ env.checksumString a.checksum := by
    intro hm
    rcases List.mem_append.mp hm with h | h
    · exact c3 h
    · exact c4 h
  have hsplit : parts (Address.String env a) =
      [env.networkTypeString a.networkType, env.addressTypeString a.addressType,
        env.bodyString a.body ++ env.checksumString a.checksum] := by
    unfold parts Address.String GetVerboseBase32Address
    rw [ToLower_ToUpper _ hlow]
    have e : env.networkTypeString a.networkType ++ [':'] ++
        env.addressTypeString a.addressType ++ [':'] ++ env.bodyString a.body ++
        env.checksumString a.checksum =
        env.networkTypeString a.networkType ++ ':' ::
          (env.addressTypeString a.addressType ++ ':' ::
            (env.bodyString a.body ++ env.checksumString a.checksum)) := by simp
    rw [e, Split_append_sep _ _ ':' c1, Split_append_sep _ _ ':' c2, Split_of_no_sep _ ':' hns]
  have hbwc : bodyWithChecksum (Address.String env a) =
      env.bodyString a.body ++ env.checksumString a.checksum := by
    unfold bodyWithChecksum
    rw [hsplit]
    rfl
  have hbs : bodyStr (Address.String env a) = env.bodyString a.body := by
    unfold bodyStr
    rw [hbwc]
    exact (take_drop_last8 _ _ hlen).1
  have hac : actualChk (Address.String env a) = env.checksumString a.checksum := by
    unfold actualChk
    rw [hbwc]
    exact (take_drop_last8 _ _ hlen).2
  have hcase : ToLower (Address.String env a) = Address.String env a ∨
      ToUpper (Address.String env a) = Address.String env a := by
    right
    unfold Address.String GetVerboseBase32Address
    exact ToUpper_idem _
  obtain ⟨v, hv⟩ : ∃ v, env.ToHexAddress a.body = (v, a.hex, none) :=
    ⟨(env.ToHexAddress a.body).1, Prod.ext rfl hhex⟩
  rw [NewFromBase32_checked env (Address.String env a) hcase
    (by rw [hsplit]; exact Or.inr rfl) a.networkType (by rw [hsplit]; exact hnet)
    (by rw [hbwc, List.length_append, hlen]; omega) a.body (by rw [hbs]; exact hbody)
    v a.hex hv a.addressType htype (by rw [hsplit]; intro _; exact l2)
    a.checksum hchk, hac]
  simp only [ne_eq, not_true_eq_false, if_false]
  exact congrArg (fun x => (x, (none : Option Error)))
    (setCache_of_derived env a hd (Address.zero : Address NT AT B C).hex)

end

/-! ## `ToCommon`, `NewFromHex`, `UnmarshalJSON` -/

section
variable {NT AT B C : Type}

theorem ToCommon_networkID (a : Address NT AT B C) : (ToCommon a).2.1 = 0 := by
  unfold ToCommon
  simp only
  split_ifs <;> rfl

theorem ToCommon_too_long (a : Address NT AT B C) (h : 42 < a.hex.length) :
    ToCommon a = (List.replicate 20 0, 0, some .tooLongForCommon) := by
  unfold ToCommon
  simp only [gt_iff_lt, h, if_true]

theorem ToCommon_cropped (a : Address NT AT B C) (h1 : 20 < a.hex.length)
    (h2 : a.hex.length ≤ 42) :
    ToCommon a = (a.hex.drop (a.hex.length - 20), 0, none) := by
  have h3 : ¬ 42 < a.hex.length := by omega
  unfold ToCommon BytesToAddress
  simp only [gt_iff_lt, h3, if_false, h1, if_true, List.length_drop]
  have : 20 - (a.hex.length - (a.hex.length - 20)) = 0 := by omega
  rw [this]
  rfl

theorem ToCommon_padded (a : Address NT AT B C) (h : a.hex.length ≤ 20) :
    ToCommon a = (List.replicate (20 - a.hex.length) 0 ++ a.hex, 0, none) := by
  have h3 : ¬ 42 < a.hex.length := by omega
  have h4 : ¬ 20 < a.hex.length := by omega
  unfold ToCommon BytesToAddress
  simp only [gt_iff_lt, h3, if_false, h4]

theorem setCache_hex (env : Codec NT AT B C) (x : Address NT AT B C) :
    (setCache env x).1.hex =
      if (env.ToHexAddress x.body).2.2 = none then (env.ToHexAddress x.body).2.1 else x.hex := by
  rcases hh : env.ToHexAddress x.body with ⟨v, hx, _ | e⟩
  · rcases hn : env.ToNetworkID x.networkType with ⟨id, _ | e⟩ <;>
      (unfold setCache; simp only [hh, hn, if_true])
  · unfold setCache
    simp only [hh]
    simp

theorem setCache_networkType (env : Codec NT AT B C) (x : Address NT AT B C) :
    (setCache env x).1.networkType = x.networkType := by
  obtain ⟨hx, id, h⟩ := setCache_frame env x
  rw [h]

end

section
variable {NT AT B C : Type} [Inhabited NT] [Inhabited AT] [Inhabited B] [Inhabited C]

theorem NewFromHex_short (env : Codec NT AT B C) (s : Str) (ids : List Nat)
    (h : s.length < 2) : NewFromHex env s ids = none := by
  unfold NewFromHex
  simp only [h, if_true]

theorem NewFromHex_returns (env : Codec NT AT B C) (s : Str) (ids : List Nat)
    (h : 2 ≤ s.length) : NewFromHex env s ids ≠ none := by
  have h' : ¬ s.length < 2 := by omega
  unfold NewFromHex
  simp only [h', if_false]
  split <;> simp

theorem unquote_quoted (t : Str) :
    (('"' :: t ++ ['"']).take (('"' :: t ++ ['"']).length - 1)).drop 1 = t := by
  have h : ('"' :: t ++ ['"']).length - 1 = t.length + 1 := by simp
  rw [h]
  simp [List.take_succ_cons]

theorem UnmarshalJSON_null (env : Codec NT AT B C) (a : Address NT AT B C) :
    UnmarshalJSON env a ['n', 'u', 'l', 'l'] = some (a, none) := by
  unfold UnmarshalJSON
  simp only [if_true]

theorem UnmarshalJSON_short (env : Codec NT AT B C) (a : Address NT AT B C) (data : Str)
    (hl : data.length < 2) : UnmarshalJSON env a data = none := by
  have hn : data ≠ ['n', 'u', 'l', 'l'] := by
    intro h
    rw [h] at hl
    exact absurd hl (by decide)
  unfold UnmarshalJSON
  simp only [hn, if_false, hl, if_true]

theorem UnmarshalJSON_err (env : Codec NT AT B C) (a : Address NT AT B C) (data : Str)
    (hn : data ≠ ['n', 'u', 'l', 'l']) (hl : 2 ≤ data.length) (e : Error)
    (he : (NewFromBase32 env ((data.take (data.length - 1)).drop 1)).2 = some e) :
    UnmarshalJSON env a data = some (a, some (.wrapf .fromBase32 e)) := by
  have hl' : ¬ data.length < 2 := by omega
  unfold UnmarshalJSON
  simp only [hn, if_false, hl']
  rcases hr : NewFromBase32 env ((data.take (data.length - 1)).drop 1) with ⟨x, _ | e'⟩
  · rw [hr] at he
    simp at he
  · rw [hr] at he
    simp only [Option.some.injEq] at he
    subst he
    rfl

theorem UnmarshalJSON_ok (env : Codec NT AT B C) (a : Address NT AT B C) (data : Str)
    (hn : data ≠ ['n', 'u', 'l', 'l']) (hl : 2 ≤ data.length) (addr : Address NT AT B C)
    (he : NewFromBase32 env ((data.take (data.length - 1)).drop 1) = (addr, none)) :
    UnmarshalJSON env a data = some (addr, none) := by
  have hl' : ¬ data.length < 2 := by omega
  unfold UnmarshalJSON
  simp only [hn, if_false, hl', he]

theorem UnmarshalJSON_frame (env : Codec NT AT B C) (a : Address NT AT B C) (data : Str)
    (r : Address NT AT B C × Option Error) (h : UnmarshalJSON env a data = some r)
    (he : r.2 ≠ none) : r.1 = a := by
  by_cases hn : data = ['n', 'u', 'l', 'l']
  · subst hn
    rw [UnmarshalJSON_null] at h
    simp only [Option.some.injEq] at h
    rw [← h]
  by_cases hl : data.length < 2
  · unfold UnmarshalJSON at h
    simp only [hn, if_false, hl, if_true] at h
    simp at h
  rcases hr : NewFromBase32 env ((data.take (data.length - 1)).drop 1) with ⟨x, _ | e'⟩
  · rw [UnmarshalJSON_ok env a data hn (by omega) x hr] at h
    simp only [Option.some.injEq] at h
    rw [← h] at he
    exact absurd rfl he
  · rw [UnmarshalJSON_err env a data hn (by omega) e' (by rw [hr])] at h
    simp only [Option.some.injEq] at h
    rw [← h]

end

/-! # The claims -/

set_option maxRecDepth 100000

/-- C1 as stated fails: the upper-case text `exampleUpperText` is accepted, and
replacing the single character `K` of its checksum suffix by the Kelvin sign
gives a different text of the same length that is accepted too, because it has
no lower-case letter and `strings.ToLower` maps the Kelvin sign to `k`. -/
theorem checksum_validation_counterexample :
    (NewFromBase32 Cip37.codec Cip37.exampleUpperText).2 = none ∧
    (Cip37.exampleUpperText.length - 8 ≤ 45 ∧ 45 < Cip37.exampleUpperText.length) ∧
    Cip37.exampleKelvinText = Cip37.exampleUpperText.set 45 kelvinSign ∧
    Cip37.exampleKelvinText.length = Cip37.exampleUpperText.length ∧
    Cip37.exampleKelvinText ≠ Cip37.exampleUpperText ∧
    (NewFromBase32 Cip37.codec Cip37.exampleKelvinText).2 = none := by
  decide

/-- C1, amended.  Checksum validation in `NewFromBase32`.  For an input that is
uniformly cased, has 2 or 3 segments, a recognized network prefix `nt`, a final
segment of at least 8 characters, a body text that decodes to `body`, a payload
that classifies to `addrType`, a matching label in the 3-segment form, and
whose checksum `chk` over `(nt, body)` is computed: an error is returned
exactly when the last 8 characters of the lowercased final segment differ from
the string form of `chk`; the returned error is the outcome of that comparison
alone, so the `setCache` step that follows cannot clear it; and if the input is
accepted, is ASCII and carries a letter before its last 8 characters, then
replacing those 8 characters by any other 8 ASCII characters (in particular
changing a single one of them to another ASCII character) makes
`NewFromBase32` return an error. -/
theorem checksum_validation {NT AT B C : Type}
    [Inhabited NT] [Inhabited AT] [Inhabited B] [Inhabited C]
    (env : Codec NT AT B C) (s : Str)
    (hcase : ToLower s = s ∨ ToUpper s = s)
    (hparts : (parts s).length = 2 ∨ (parts s).length = 3)
    (nt : NT) (hnet : env.NewNetowrkType ((parts s).getD 0 []) = (nt, none))
    (hlen : 8 ≤ (bodyWithChecksum s).length)
    (body : B) (hbody : env.NewBodyByString (bodyStr s) = (body, none))
    (v : Nat) (hexAddress : Bytes) (hhex : env.ToHexAddress body = (v, hexAddress, none))
    (addrType : AT) (htype : env.CalcAddressType hexAddress = (addrType, none))
    (hlabel : (parts s).length = 3 →
      ToLower ((parts s).getD 1 []) = env.addressTypeString addrType)
    (chk : C) (hchk : env.CalcChecksum nt body = (chk, none)) :
    ((NewFromBase32 env s).2 ≠ none ↔ actualChk s ≠ env.checksumString chk) ∧
    (NewFromBase32 env s).2 =
      (if env.checksumString chk ≠ actualChk s then some .invalidChecksum else none) ∧
    ((NewFromBase32 env s).2 = none →
      (∀ c ∈ s, isASCII c) →
      (∃ c ∈ s.take (s.length - 8), isUpperLetter c ∨ isLowerLetter c) →
      ∀ suf : Str, suf.length = 8 → (∀ c ∈ suf, isASCII c) →
        suf ≠ s.drop (s.length - 8) →
        (NewFromBase32 env (s.take (s.length - 8) ++ suf)).2 ≠ none) := by
  have hres := NewFromBase32_checked env s hcase hparts nt hnet hlen body hbody v hexAddress
    hhex addrType htype hlabel chk hchk
  have herr : (NewFromBase32 env s).2 =
      (if env.checksumString chk ≠ actualChk s then some .invalidChecksum else none) := by
    rw [hres]
  refine ⟨?_, herr, ?_⟩
  · rw [herr]
    by_cases h : env.checksumString chk = actualChk s
    · simp [h]
    · have h' : actualChk s ≠ env.checksumString chk := fun e => h e.symm
      simp [h, h']
  · intro hok hascii hletter suf hsuf hasciiSuf hne
    have hacc : actualChk s = env.checksumString chk := by
      rw [herr] at hok
      by_contra hc
      have hc' : env.checksumString chk ≠ actualChk s := fun e => hc e.symm
      simp [hc'] at hok
    exact NewFromBase32_suffix_change env s hcase hparts nt hnet hlen body hbody v hexAddress
      hhex addrType htype hlabel chk hchk hacc hascii hletter suf hsuf hasciiSuf hne

/-- The published mainnet address of the example payload is accepted, and the
same text with the last character of its checksum changed from `g` to `h` is
rejected. -/
theorem checksum_validation_witness :
    (NewFromBase32 Cip37.codec Cip37.exampleText).2 = none ∧
    (NewFromBase32 Cip37.codec
      (Cip37.exampleText.take (Cip37.exampleText.length - 8) ++ "ybjgh4xh".toList)).2
        ≠ none :=
  have h := checksum_validation Cip37.codec Cip37.exampleText (by decide) (by decide)
    .mainnet (by decide) (by decide)
    (Cip37.NewBodyByString (bodyStr Cip37.exampleText)).1 (by decide)
    0 Cip37.examplePayload (by decide) .user (by decide) (by decide)
    (Cip37.CalcChecksum .mainnet (Cip37.NewBodyByString (bodyStr Cip37.exampleText)).1).1
    (by decide)
  ⟨by decide, h.2.2 (by decide) (by decide) ⟨'c', by decide, by decide⟩ "ybjgh4xh".toList
    (by decide) (by decide) (by decide)⟩

/-- C2, evaluated at the failing input.  The address built from the example
payload without a network id and then completed with id 1029 prints as the
published mainnet address; parsing that text succeeds, but the parsed address
caches network id 1029 while the completed address still caches 0, so `Equals`
reports them different. -/
theorem text_round_trip_after_completion :
    Cip37.exampleCompleted.map (GetBase32Address Cip37.codec) = some Cip37.exampleText ∧
    (NewFromBase32 Cip37.codec Cip37.exampleText).2 = none ∧
    (NewFromBase32 Cip37.codec Cip37.exampleText).1.networkID = 1029 ∧
    Cip37.exampleCompleted.map (fun a => a.networkID) = some 0 ∧
    Cip37.exampleCompleted.map
      (fun a => Address.Equals (NewFromBase32 Cip37.codec Cip37.exampleText).1 a)
        = some false := by
  decide

/-- C3. Binary round trip.  For a payload `b` that classifies, has a version
byte, packs into a body and has a checksum, and any network id arguments (none
at all counts as id 0): when the body unpacks to `b` again, `ToNetworkID`
inverts `NewNetworkTypeByID` at a nonzero id and fails (or yields 0) at the
unset network, `NewFromBytes` returns no error and `ToHex` of its result is the
hex text of `b` with the network id. -/
theorem binary_round_trip {NT AT B C : Type}
    [Inhabited NT] [Inhabited AT] [Inhabited B] [Inhabited C]
    (env : Codec NT AT B C) (b : Bytes) (networkID : List Nat)
    (addrType : AT) (htype : env.CalcAddressType b = (addrType, none))
    (versionByte : Nat) (hver : env.CalcVersionByte b = (versionByte, none))
    (body : B) (hbody : env.NewBodyByHexAddress versionByte b = (body, none))
    (chk : C)
    (hchk : env.CalcChecksum (env.NewNetworkTypeByID (get1stNetworkIDIfy networkID)) body
      = (chk, none))
    (v : Nat) (hlossless : env.ToHexAddress body = (v, b, none))
    (hinverse : get1stNetworkIDIfy networkID ≠ 0 →
      env.ToNetworkID (env.NewNetworkTypeByID (get1stNetworkIDIfy networkID))
        = (get1stNetworkIDIfy networkID, none))
    (hunset : get1stNetworkIDIfy networkID = 0 →
      (env.ToNetworkID (env.NewNetworkTypeByID 0)).2 ≠ none ∨
      (env.ToNetworkID (env.NewNetworkTypeByID 0)).1 = 0) :
    (NewFromBytes env b networkID).2 = none ∧
    ToHex (NewFromBytes env b networkID).1 =
      (hexEncodeToString b, get1stNetworkIDIfy networkID) := by
  rw [NewFromBytes_ok env b networkID addrType htype versionByte hver body hbody chk hchk]
  refine ⟨rfl, ?_⟩
  by_cases hn : get1stNetworkIDIfy networkID = 0
  · have hu := hunset hn
    rw [hn]
    by_cases he : (env.ToNetworkID (env.NewNetworkTypeByID 0)).2 = none
    · have h0 : (env.ToNetworkID (env.NewNetworkTypeByID 0)).1 = 0 := by
        rcases hu with hu | hu
        · exact absurd he hu
        · exact hu
      have hid : env.ToNetworkID (env.NewNetworkTypeByID 0) = (0, none) :=
        Prod.ext h0 he
      rw [setCache_ok env _ v b hlossless 0 hid]
      rfl
    · rw [setCache_unresolved env _ v b hlossless he]
      rfl
  · rw [setCache_ok env _ v b hlossless _ (hinverse hn)]
    rfl

/-- The example payload with network id 1029, and with no network id. -/
theorem binary_round_trip_witness :
    ((NewFromBytes Cip37.codec Cip37.examplePayload [1029]).2 = none ∧
      ToHex (NewFromBytes Cip37.codec Cip37.examplePayload [1029]).1 =
        ("1a2f80341409639ea6a35bbcab8299066109aa55".toList, 1029)) ∧
    ((NewFromBytes Cip37.codec Cip37.examplePayload []).2 = none ∧
      ToHex (NewFromBytes Cip37.codec Cip37.examplePayload []).1 =
        ("1a2f80341409639ea6a35bbcab8299066109aa55".toList, 0)) :=
  ⟨binary_round_trip Cip37.codec Cip37.examplePayload [1029] .user (by decide) 0 (by decide)
      (Cip37.NewBodyByHexAddress 0 Cip37.examplePayload).1 (by decide)
      (Cip37.CalcChecksum .mainnet (Cip37.NewBodyByHexAddress 0 Cip37.examplePayload).1).1
      (by decide) 0 (by decide) (fun _ => by decide) (fun h => absurd h (by decide)),
    binary_round_trip Cip37.codec Cip37.examplePayload [] .user (by decide) 0 (by decide)
      (Cip37.NewBodyByHexAddress 0 Cip37.examplePayload).1 (by decide)
      (Cip37.CalcChecksum (.custom 0) (Cip37.NewBodyByHexAddress 0 Cip37.examplePayload).1).1
      (by decide) 0 (by decide) (fun h => absurd rfl h) (fun _ => Or.inl (by decide))⟩

/-- C4, evaluated at the failing input.  The example address is built without
a network id, so its network is unset and its cached id is 0.  After
`CompleteByNetworkID(1029)` its network type resolves to 1029 (the value
`GetNetworkID` returns), its cached hex is still the payload, but the network
id that `ToHex` reports is still 0. -/
theorem completion_leaves_cached_id :
    (Cip37.codec.ToNetworkID Cip37.exampleUnbound.networkType).2 ≠ none ∧
    Cip37.exampleCompleted.map (GetNetworkID Cip37.codec) = some (some 1029) ∧
    Cip37.exampleCompleted.map (fun a => a.hex) = some Cip37.examplePayload ∧
    Cip37.exampleCompleted.map (fun a => (ToHex a).2) = some 0 := by
  decide

/-- C5. Network completion adopts the id.  For a non-nil address whose network
type does not resolve to a nonzero id (`ToNetworkID` fails or yields 0) and any
id, after `CompleteByNetworkID(id)` the network type is
`NewNetworkTypeByID(id)`, the checksum is the one `CalcChecksum` returns for
that network type and the body, and every other field (address type, body,
cached hex, cached network id) is unchanged. -/
theorem completion_adopts_id {NT AT B C : Type}
    (env : Codec NT AT B C) (a : Address NT AT B C)
    (networkID : Nat)
    (h : (env.ToNetworkID a.networkType).2 ≠ none ∨ (env.ToNetworkID a.networkType).1 = 0) :
    (CompleteByNetworkID env (some a) networkID).1 =
      some { a with
        networkType := env.NewNetworkTypeByID networkID
        checksum := (env.CalcChecksum (env.NewNetworkTypeByID networkID) a.body).1 } :=
  CompleteByNetworkID_unresolved env a networkID h

/-- The example address without a network, completed with id 1029. -/
theorem completion_adopts_id_witness :
    ((Cip37.codec.ToNetworkID Cip37.exampleUnbound.networkType).2 ≠ none ∨
      (Cip37.codec.ToNetworkID Cip37.exampleUnbound.networkType).1 = 0) ∧
    (CompleteByNetworkID Cip37.codec (some Cip37.exampleUnbound) 1029).1 =
      some { Cip37.exampleUnbound with
        networkType := Cip37.codec.NewNetworkTypeByID 1029
        checksum := (Cip37.codec.CalcChecksum (Cip37.codec.NewNetworkTypeByID 1029)
          Cip37.exampleUnbound.body).1 } :=
  ⟨Or.inl (by decide),
    completion_adopts_id Cip37.codec Cip37.exampleUnbound 1029 (Or.inl (by decide))⟩

/-- C6. Idempotent completion.  For an address whose network type resolves to a
nonzero id and any id argument, `CompleteByNetworkID` returns no error and
leaves the address, with its checksum, cached hex and cached network id,
unchanged. -/
theorem idempotent_completion {NT AT B C : Type}
    (env : Codec NT AT B C) (a : Address NT AT B C)
    (networkID : Nat) (id : Nat) (hid : id ≠ 0)
    (h : env.ToNetworkID a.networkType = (id, none)) :
    CompleteByNetworkID env (some a) networkID = (some a, none) :=
  CompleteByNetworkID_resolved env a networkID id hid h

/-- The parsed mainnet example address, completed with the testnet id 1. -/
theorem idempotent_completion_witness :
    Cip37.codec.ToNetworkID (NewFromBase32 Cip37.codec Cip37.exampleText).1.networkType
      = (1029, none) ∧
    CompleteByNetworkID Cip37.codec (some (NewFromBase32 Cip37.codec Cip37.exampleText).1) 1
      = (some (NewFromBase32 Cip37.codec Cip37.exampleText).1, none) :=
  ⟨by decide,
    idempotent_completion Cip37.codec (NewFromBase32 Cip37.codec Cip37.exampleText).1 1 1029
      (by decide) (by decide)⟩

/-- C7. Case rejection.  A string with an upper-case and a lower-case letter
makes `NewFromBase32` return the zero address and the mixed-case error, whatever
the codec computes, so before any splitting, network parsing, body decoding or
checksum computation.  An ASCII string with no upper-case letter, or with no
lower-case letter, does not get the mixed-case error, and its result is the
result for its lowercased form. -/
theorem case_rejection {NT AT B C : Type}
    [Inhabited NT] [Inhabited AT] [Inhabited B] [Inhabited C]
    (env : Codec NT AT B C) (s : Str) :
    (((∃ c ∈ s, isUpperLetter c) ∧ (∃ c ∈ s, isLowerLetter c)) →
      NewFromBase32 env s = (Address.zero, some .mixedCase)) ∧
    ((∀ c ∈ s, isASCII c) →
      ((∀ c ∈ s, ¬ isUpperLetter c) ∨ (∀ c ∈ s, ¬ isLowerLetter c)) →
      (NewFromBase32 env s).2 ≠ some .mixedCase ∧
      NewFromBase32 env s = NewFromBase32 env (ToLower s)) := by
  constructor
  · rintro ⟨⟨c, hc, hcu⟩, ⟨d, hd, hdl⟩⟩
    apply NewFromBase32_mixed
    constructor
    · intro h
      exact ((ToLower_eq_iff s).mp h c hc).1 hcu
    · intro h
      exact (ToUpper_eq_iff s).mp h d hd hdl
  · intro hascii h
    have hu : ToLower s = s ∨ ToUpper s = s := by
      rcases h with h | h
      · exact Or.inl ((ToLower_eq_iff_of_isASCII s hascii).mpr h)
      · exact Or.inr ((ToUpper_eq_iff s).mpr h)
    refine ⟨?_, NewFromBase32_lower env s hu⟩
    intro hm
    exact not_mixed_of_uniform s hu ((NewFromBase32_mixed_iff env s).mp hm)

/-- The example address with only its first letter in upper case is rejected;
the example address in upper case, an ASCII text, is processed as the
lower-case one. -/
theorem case_rejection_witness :
    NewFromBase32 Cip37.codec ('C' :: Cip37.exampleText.drop 1)
      = (Address.zero, some .mixedCase) ∧
    (∀ c ∈ ToUpper Cip37.exampleText, isASCII c) ∧
    ((NewFromBase32 Cip37.codec (ToUpper Cip37.exampleText)).2 ≠ some .mixedCase ∧
      NewFromBase32 Cip37.codec (ToUpper Cip37.exampleText)
        = NewFromBase32 Cip37.codec (ToLower (ToUpper Cip37.exampleText))) :=
  ⟨(case_rejection Cip37.codec ('C' :: Cip37.exampleText.drop 1)).1
      ⟨⟨'C', by decide, by decide⟩, ⟨'f', by decide, by decide⟩⟩,
    by decide,
    (case_rejection Cip37.codec (ToUpper Cip37.exampleText)).2 (by decide)
      (Or.inr (by decide))⟩

/-- C8. Address-type label check.  For a uniformly cased input: in the
3-segment form, if the network prefix is recognized, the final segment has at
least 8 characters, the body text decodes and classifies to `addrType`, and the
lowercased middle segment differs from the label of `addrType`, then
`NewFromBase32` returns the address-type error; nothing is assumed about the
last 8 characters, the checksum suffix.  In the 2-segment form the result does
not depend on the labels at all. -/
theorem address_type_label_check {NT AT B C : Type}
    [Inhabited NT] [Inhabited AT] [Inhabited B] [Inhabited C]
    (env : Codec NT AT B C) (s : Str)
    (hcase : ToLower s = s ∨ ToUpper s = s) :
    ((parts s).length = 3 →
      ∀ (nt : NT) (body : B) (v : Nat) (hexAddress : Bytes) (addrType : AT),
        env.NewNetowrkType ((parts s).getD 0 []) = (nt, none) →
        8 ≤ (bodyWithChecksum s).length →
        env.NewBodyByString (bodyStr s) = (body, none) →
        env.ToHexAddress body = (v, hexAddress, none) →
        env.CalcAddressType hexAddress = (addrType, none) →
        ToLower ((parts s).getD 1 []) ≠ env.addressTypeString addrType →
        (NewFromBase32 env s).2 = some .invalidAddressType) ∧
    ((parts s).length = 2 →
      ∀ label : AT → Str,
        NewFromBase32 { env with addressTypeString := label } s = NewFromBase32 env s) := by
  constructor
  · intro h3 nt body v hexAddress addrType hnet hlen hbody hhex htype hlabel
    rw [NewFromBase32_label env s hcase h3 nt hnet hlen body hbody v hexAddress hhex
      addrType htype hlabel]
  · intro h2 label
    have hs : ∀ a : Address NT AT B C,
        setCache { env with addressTypeString := label } a = setCache env a := fun _ => rfl
    unfold parts at h2
    unfold NewFromBase32
    simp only [h2, hs]
    simp

/-- The example address with the label `contract` in front of a user payload
is rejected; the 2-segment example address parses the same under a codec whose
labels are all empty. -/
theorem address_type_label_check_witness :
    (NewFromBase32 Cip37.codec
      "cfx:contract:aarc9abycue0hhzgyrr53m6cxedgccrmmyybjgh4xg".toList).2
        = some .invalidAddressType ∧
    NewFromBase32 { Cip37.codec with addressTypeString := fun _ => [] } Cip37.exampleText
      = NewFromBase32 Cip37.codec Cip37.exampleText :=
  ⟨(address_type_label_check Cip37.codec
      "cfx:contract:aarc9abycue0hhzgyrr53m6cxedgccrmmyybjgh4xg".toList
      (Or.inl (by decide))).1 (by decide) .mainnet
      (Cip37.NewBodyByString (bodyStr Cip37.exampleText)).1 0 Cip37.examplePayload .user
      (by decide) (by decide) (by decide) (by decide) (by decide) (by decide),
    (address_type_label_check Cip37.codec Cip37.exampleText (Or.inl (by decide))).2
      (by decide) (fun _ => [])⟩

/-- C9 as stated fails: the strings `abcde` and `Cfx:abcde` have a final
segment of 5 characters, and `NewFromBase32` does not return the body-too-short
error for them but the malformed-format error and the mixed-case error. -/
theorem body_too_short_counterexample :
    ((bodyWithChecksum "abcde".toList).length = 5 ∧
      (NewFromBase32 Cip37.codec "abcde".toList).2 = some .invalidFormat ∧
      (NewFromBase32 Cip37.codec "abcde".toList).2 ≠ some .bodyTooShort) ∧
    ((bodyWithChecksum "Cfx:abcde".toList).length = 5 ∧
      (NewFromBase32 Cip37.codec "Cfx:abcde".toList).2 = some .mixedCase ∧
      (NewFromBase32 Cip37.codec "Cfx:abcde".toList).2 ≠ some .bodyTooShort) := by
  decide

/-- C9, amended.  For a uniformly cased input with 2 or 3 segments and a
recognized network prefix `nt` whose final segment has fewer than 8 characters,
`NewFromBase32` returns the body-too-short error with an address that holds
only `nt`; the result is the same under every codec with the same network
parser, so neither the body codec nor the checksum computation takes part. -/
theorem body_too_short {NT AT B C : Type}
    [Inhabited NT] [Inhabited AT] [Inhabited B] [Inhabited C]
    (env : Codec NT AT B C) (s : Str)
    (hcase : ToLower s = s ∨ ToUpper s = s)
    (hparts : (parts s).length = 2 ∨ (parts s).length = 3)
    (nt : NT) (hnet : env.NewNetowrkType ((parts s).getD 0 []) = (nt, none))
    (hlen : (bodyWithChecksum s).length < 8) :
    NewFromBase32 env s =
      ({ (Address.zero : Address NT AT B C) with networkType := nt }, some .bodyTooShort) ∧
    ∀ env' : Codec NT AT B C, env'.NewNetowrkType = env.NewNetowrkType →
      NewFromBase32 env' s = NewFromBase32 env s := by
  refine ⟨NewFromBase32_short env s hcase hparts nt hnet hlen, ?_⟩
  intro env' he
  rw [NewFromBase32_short env s hcase hparts nt hnet hlen,
    NewFromBase32_short env' s hcase hparts nt (by rw [he]; exact hnet) hlen]

/-- The input `cfx:abcde`, whose final segment has 5 characters. -/
theorem body_too_short_witness :
    (bodyWithChecksum "cfx:abcde".toList).length < 8 ∧
    NewFromBase32 Cip37.codec "cfx:abcde".toList =
      ({ (Address.zero : Address Cip37.NetworkType Cip37.AddressType Cip37.Body
          Cip37.Checksum) with networkType := .mainnet }, some .bodyTooShort) :=
  ⟨by decide,
    (body_too_short Cip37.codec "cfx:abcde".toList (Or.inl (by decide)) (Or.inl (by decide))
      .mainnet (by decide) (by decide)).1⟩

/-- C10. Segment count.  The lowercased input has one segment more than the
input has colons; for a uniformly cased input with no colon, or with three or
more colons, `NewFromBase32` returns the zero address and the malformed-format
error, whatever the codec computes and whatever the segments hold. -/
theorem segment_count {NT AT B C : Type}
    [Inhabited NT] [Inhabited AT] [Inhabited B] [Inhabited C]
    (env : Codec NT AT B C) (s : Str)
    (hcase : ToLower s = s ∨ ToUpper s = s)
    (hseg : s.count ':' = 0 ∨ 3 ≤ s.count ':') :
    (parts s).length = s.count ':' + 1 ∧
    NewFromBase32 env s = (Address.zero, some .invalidFormat) := by
  refine ⟨parts_length s, NewFromBase32_format env s hcase ?_⟩
  rw [parts_length]
  omega

/-- The input `cfx:user:abc:def`, with three colons. -/
theorem segment_count_witness :
    3 ≤ "cfx:user:abc:def".toList.count ':' ∧
    NewFromBase32 Cip37.codec "cfx:user:abc:def".toList
      = (Address.zero, some .invalidFormat) :=
  ⟨by decide,
    (segment_count Cip37.codec "cfx:user:abc:def".toList (Or.inl (by decide))
      (Or.inr (by decide))).2⟩

/-- C11, evaluated at the failing inputs.  `NewFromHex` on the empty string, and
on the one-character string `0`, aborts: the slice `hexAddressStr[0:2]` is out of
range, so neither an address nor an error is returned.  On longer inputs it
returns: the hex text of the example payload gives the address of
`NewFromBytes`, the same text without its last digit (an odd number of digits)
and the text with a `g` in it give an error. -/
theorem new_from_hex_short_input :
    NewFromHex Cip37.codec [] [1029] = none ∧
    NewFromHex Cip37.codec ['0'] [1029] = none ∧
    NewFromHex Cip37.codec "0x1a2f80341409639ea6a35bbcab8299066109aa55".toList [1029]
      = some (NewFromBytes Cip37.codec Cip37.examplePayload [1029]) ∧
    NewFromHex Cip37.codec "0x1a2f80341409639ea6a35bbcab8299066109aa5".toList [1029]
      = some (Address.zero, some (.wrapf .decodeHex .hexErrLength)) ∧
    NewFromHex Cip37.codec "0x1g2f80341409639ea6a35bbcab8299066109aa55".toList [1029]
      = some (Address.zero, some (.wrapf .decodeHex (.hexInvalidByte 'g'))) :=
  ⟨by decide, by decide, by decide, by decide, by decide⟩

/-- C12, evaluated at the failing input.  The text `exampleLongText` parses
without error to an address whose cached payload has 24 bytes; `ToCommon` on it
returns no error, and the 20 bytes it returns are the payload without its first
4 bytes. -/
theorem to_common_long_payload :
    (NewFromBase32 Cip37.codec Cip37.exampleLongText).2 = none ∧
    (NewFromBase32 Cip37.codec Cip37.exampleLongText).1.hex
      = Cip37.examplePayload ++ [1, 2, 3, 4] ∧
    (NewFromBase32 Cip37.codec Cip37.exampleLongText).1.hex.length = 24 ∧
    (ToCommon (NewFromBase32 Cip37.codec Cip37.exampleLongText).1).2.2 = none ∧
    (ToCommon (NewFromBase32 Cip37.codec Cip37.exampleLongText).1).1
      = (Cip37.examplePayload ++ [1, 2, 3, 4]).drop 4 := by
  decide

/-- C13, evaluated at the failing input.  For the example address built with
network id 1029, `ToCommon` succeeds and returns the 20 payload bytes, `ToHex`
reports the cached network id 1029, and the network id that `ToCommon` returns
is 0. -/
theorem to_common_network_id :
    (ToCommon Cip37.exampleBound).2.2 = none ∧
    (ToCommon Cip37.exampleBound).1 = Cip37.examplePayload ∧
    (ToHex Cip37.exampleBound).2 = 1029 ∧
    (ToCommon Cip37.exampleBound).2.1 = 0 := by
  decide

/-- C14 as stated fails: for the example address built with network id 1029,
`String()` is `CFX:USER:AARC9ABYCUE0HHZGYRR53M6CXEDGCCRMMYYBJGH4XG`, while
`GetBase32Address()` is `cfx:aarc9abycue0hhzgyrr53m6cxedgccrmmyybjgh4xg`. -/
theorem string_is_non_verbose_counterexample :
    Address.String Cip37.codec Cip37.exampleBound
      = "CFX:USER:AARC9ABYCUE0HHZGYRR53M6CXEDGCCRMMYYBJGH4XG".toList ∧
    GetBase32Address Cip37.codec Cip37.exampleBound
      = "cfx:aarc9abycue0hhzgyrr53m6cxedgccrmmyybjgh4xg".toList ∧
    Address.String Cip37.codec Cip37.exampleBound
      ≠ GetBase32Address Cip37.codec Cip37.exampleBound := by
  decide

/-- C14, amended.  `String()` is the verbose form: for every address it equals
`GetVerboseBase32Address()`, the text network:type:body+checksum with the
address-type label, in upper case. -/
theorem string_is_verbose {NT AT B C : Type} (env : Codec NT AT B C)
    (a : Address NT AT B C) :
    Address.String env a = GetVerboseBase32Address env a ∧
    Address.String env a =
      ToUpper (env.networkTypeString a.networkType ++ [':'] ++
        env.addressTypeString a.addressType ++ [':'] ++ env.bodyString a.body ++
        env.checksumString a.checksum) ∧
    ToUpper (Address.String env a) = Address.String env a := by
  refine ⟨rfl, rfl, ?_⟩
  unfold Address.String GetVerboseBase32Address
  exact ToUpper_idem _

/-- C15. Text serialization round trip.  Let `a` be an address returned without
error by `NewFromBytes` (for a payload that its body unpacks to again) or by
`NewFromBase32`, over a codec whose text forms of the fields of `a` are
canonical (lower case, no colon, checksum of 8 characters, network prefix and
body text read back by the codec).  Then `MarshalText` returns, without error,
the verbose text network:type:body+checksum in upper case, and `UnmarshalJSON`
on that text between double quotes returns no error and stores an address that
`Equals` reports equal to `a`, whatever the destination held. -/
theorem text_serialization_round_trip {NT AT B C : Type}
    [Inhabited NT] [Inhabited AT] [Inhabited B] [Inhabited C]
    [DecidableEq NT] [DecidableEq AT] [DecidableEq B] [DecidableEq C]
    (env : Codec NT AT B C) (a dest : Address NT AT B C)
    (hprod :
      (∃ (b : Bytes) (ids : List Nat), NewFromBytes env b ids = (a, none) ∧
        (env.ToHexAddress a.body).2 = (b, none)) ∨
      (∃ s : Str, NewFromBase32 env s = (a, none)))
    (htext : CanonicalText env a) :
    MarshalText env a =
      (ToUpper (env.networkTypeString a.networkType ++ [':'] ++
        env.addressTypeString a.addressType ++ [':'] ++ env.bodyString a.body ++
        env.checksumString a.checksum), none) ∧
    ToUpper (MarshalText env a).1 = (MarshalText env a).1 ∧
    ∃ stored : Address NT AT B C,
      UnmarshalJSON env dest ('"' :: (MarshalText env a).1 ++ ['"']) = some (stored, none) ∧
      Address.Equals stored a = true := by
  have hd : Derived env a := by
    rcases hprod with ⟨b, ids, h1, h2⟩ | ⟨s, h1⟩
    · exact NewFromBytes_derived env b ids a h1 h2
    · exact NewFromBase32_derived env s a h1
  refine ⟨rfl, ?_, a, ?_, ?_⟩
  · show ToUpper (Address.String env a) = Address.String env a
    unfold Address.String GetVerboseBase32Address
    exact ToUpper_idem _
  · have hq : ('"' :: (MarshalText env a).1 ++ ['"']) ≠ ['n', 'u', 'l', 'l'] := by
      intro h
      have := (List.cons.inj h).1
      exact absurd this (by decide)
    apply UnmarshalJSON_ok env dest _ hq (by simp)
    rw [unquote_quoted]
    exact NewFromBase32_String env a hd htext
  · simp [Address.Equals]

/-- The example address built with network id 1029: its text is
`CFX:USER:AARC9ABYCUE0HHZGYRR53M6CXEDGCCRMMYYBJGH4XG`, and unmarshalling the
quoted text into the zero address stores the example address. -/
theorem text_serialization_round_trip_witness :
    (MarshalText Cip37.codec Cip37.exampleBound).1
      = "CFX:USER:AARC9ABYCUE0HHZGYRR53M6CXEDGCCRMMYYBJGH4XG".toList ∧
    ∃ stored,
      UnmarshalJSON Cip37.codec Address.zero
        ('"' :: (MarshalText Cip37.codec Cip37.exampleBound).1 ++ ['"']) = some (stored, none) ∧
      Address.Equals stored Cip37.exampleBound = true :=
  ⟨by decide,
    (text_serialization_round_trip Cip37.codec Cip37.exampleBound Address.zero
      (Or.inl ⟨Cip37.examplePayload, [1029], by decide, by decide⟩)
      (by unfold CanonicalText; decide)).2.2⟩

/-- C16, evaluated at the failing input.  `UnmarshalJSON` on the one-byte JSON
value `5`, on a lone quote and on the empty input aborts: the slice
`data[1 : len(data)-1]` is out of range, so neither an error is returned nor is
the call completed.  Elsewhere the claim holds: on `null` the call returns no
error and leaves the destination, the example address without a network, as it
was; on the quoted example address with the last character of its checksum
changed, and on the two-byte value `55`, it returns the wrapped parsing error
and leaves the destination as it was. -/
theorem unmarshal_json_short_input :
    UnmarshalJSON Cip37.codec Cip37.exampleUnbound ['5'] = none ∧
    UnmarshalJSON Cip37.codec Cip37.exampleUnbound ['"'] = none ∧
    UnmarshalJSON Cip37.codec Cip37.exampleUnbound [] = none ∧
    UnmarshalJSON Cip37.codec Cip37.exampleUnbound ['n', 'u', 'l', 'l']
      = some (Cip37.exampleUnbound, none) ∧
    UnmarshalJSON Cip37.codec Cip37.exampleUnbound
      "\"CFX:USER:AARC9ABYCUE0HHZGYRR53M6CXEDGCCRMMYYBJGH4XH\"".toList
        = some (Cip37.exampleUnbound, some (.wrapf .fromBase32 .invalidChecksum)) ∧
    UnmarshalJSON Cip37.codec Cip37.exampleUnbound ['5', '5']
      = some (Cip37.exampleUnbound, some (.wrapf .fromBase32 .invalidFormat)) :=
  ⟨by decide, by decide, by decide, by decide, by decide, by decide⟩

/-- C17. `CompleteByClient`.  When the client's `GetNetworkID()` fails with
`err`, `CompleteByClient` returns an error, `err` wrapped, and the receiver is
unchanged; when it succeeds with `id`, the receiver after the call is the
receiver after `CompleteByNetworkID(id)`. -/
theorem complete_by_client {NT AT B C : Type} (env : Codec NT AT B C)
    (a : Option (Address NT AT B C)) (id : Nat) (err : Error) :
    CompleteByClient env a (id, some err) = (a, some (.wrapf .getNetworkID err)) ∧
    (CompleteByClient env a (id, none)).1 = (CompleteByNetworkID env a id).1 :=
  ⟨rfl, rfl⟩

/-- C18. Cross-network inequality.  For a payload `b` that classifies, has a
version byte, packs into a body and has a checksum on both networks, and two
different network ids that `NewNetworkTypeByID` maps to different network
types: both calls of `NewFromBytes` return no error, `Equals` reports the two
addresses different, and `GetHexAddress` returns the same text for both. -/
theorem cross_network_inequality {NT AT B C : Type}
    [Inhabited NT] [Inhabited AT] [Inhabited B] [Inhabited C]
    [DecidableEq NT] [DecidableEq AT] [DecidableEq B] [DecidableEq C]
    (env : Codec NT AT B C) (b : Bytes) (n1 n2 : Nat) (hne : n1 ≠ n2)
    (hinj : env.NewNetworkTypeByID n1 = env.NewNetworkTypeByID n2 → n1 = n2)
    (addrType : AT) (htype : env.CalcAddressType b = (addrType, none))
    (versionByte : Nat) (hver : env.CalcVersionByte b = (versionByte, none))
    (body : B) (hbody : env.NewBodyByHexAddress versionByte b = (body, none))
    (chk1 : C) (hchk1 : env.CalcChecksum (env.NewNetworkTypeByID n1) body = (chk1, none))
    (chk2 : C) (hchk2 : env.CalcChecksum (env.NewNetworkTypeByID n2) body = (chk2, none)) :
    (NewFromBytes env b [n1]).2 = none ∧ (NewFromBytes env b [n2]).2 = none ∧
    Address.Equals (NewFromBytes env b [n1]).1 (NewFromBytes env b [n2]).1 = false ∧
    GetHexAddress (NewFromBytes env b [n1]).1 = GetHexAddress (NewFromBytes env b [n2]).1 := by
  have e1 := NewFromBytes_ok env b [n1] addrType htype versionByte hver body hbody chk1 hchk1
  have e2 := NewFromBytes_ok env b [n2] addrType htype versionByte hver body hbody chk2 hchk2
  rw [e1, e2]
  refine ⟨rfl, rfl, ?_, ?_⟩
  · simp only [Address.Equals, decide_eq_false_iff_not]
    intro h
    have hnt := congrArg Address.networkType h
    rw [setCache_networkType, setCache_networkType] at hnt
    exact hne (hinj hnt)
  · unfold GetHexAddress ToHex
    simp only
    rw [setCache_hex, setCache_hex]

/-- The example payload on mainnet (id 1029) and on testnet (id 1). -/
theorem cross_network_inequality_witness :
    Address.Equals (NewFromBytes Cip37.codec Cip37.examplePayload [1029]).1
      (NewFromBytes Cip37.codec Cip37.examplePayload [1]).1 = false ∧
    GetHexAddress (NewFromBytes Cip37.codec Cip37.examplePayload [1029]).1
      = GetHexAddress (NewFromBytes Cip37.codec Cip37.examplePayload [1]).1 :=
  (cross_network_inequality Cip37.codec Cip37.examplePayload 1029 1 (by decide)
    (fun h => absurd h (by decide)) .user (by decide) 0 (by decide)
    (Cip37.NewBodyByHexAddress 0 Cip37.examplePayload).1 (by decide)
    (Cip37.CalcChecksum .mainnet (Cip37.NewBodyByHexAddress 0 Cip37.examplePayload).1).1
    (by decide)
    (Cip37.CalcChecksum .testnet (Cip37.NewBodyByHexAddress 0 Cip37.examplePayload).1).1
    (by decide)).2.2

/-- C19 as stated fails: `NewFromBytes` on the example payload without a
network id returns no error, although the network type of the address it
returns cannot be resolved to an id, so that the `setCache` step fails; the
cached network id of the returned address is 0. -/
theorem no_half_built_value_counterexample :
    (NewFromBytes Cip37.codec Cip37.examplePayload []).2 = none ∧
    (Cip37.codec.ToNetworkID (NewFromBytes Cip37.codec Cip37.examplePayload []).1.networkType).2
      = some (.external 1) ∧
    (setCache Cip37.codec (NewFromBytes Cip37.codec Cip37.examplePayload []).1).2
      = some (.wrapf .setCacheNetworkID (.external 1)) ∧
    (NewFromBytes Cip37.codec Cip37.examplePayload []).1.networkID = 0 := by
  decide

/-- C19, amended.  Whenever `NewFromBase32` returns the address `a` and no
error, or `NewFromBytes` returns `a` and no error and the body of `a` unpacks,
the cached hex of `a` is the payload of its body, and the cached network id of
`a` is the id of its network type, or 0 when the network type cannot be
resolved to an id. -/
theorem constructors_establish_cache {NT AT B C : Type}
    [Inhabited NT] [Inhabited AT] [Inhabited B] [Inhabited C]
    (env : Codec NT AT B C) (a : Address NT AT B C)
    (hprod : (∃ s, NewFromBase32 env s = (a, none)) ∨
      (∃ b ids, NewFromBytes env b ids = (a, none) ∧
        (env.ToHexAddress a.body).2.2 = none)) :
    (env.ToHexAddress a.body).2 = (a.hex, none) ∧
    (env.ToNetworkID a.networkType = (a.networkID, none) ∨
      ((env.ToNetworkID a.networkType).2 ≠ none ∧ a.networkID = 0)) := by
  rcases hprod with ⟨s, h⟩ | ⟨b, ids, h, hhex⟩
  · have hd := NewFromBase32_derived env s a h
    exact ⟨hd.1, hd.2.2.2⟩
  · exact NewFromBytes_cache env b ids a h hhex

/-- The example address built from its payload with network id 1029: its cached
hex is the example payload and its cached network id is 1029. -/
theorem constructors_establish_cache_witness :
    NewFromBytes Cip37.codec Cip37.examplePayload [1029] = (Cip37.exampleBound, none) ∧
    Cip37.exampleBound.hex = Cip37.examplePayload ∧
    Cip37.exampleBound.networkID = 1029 ∧
    ((Cip37.codec.ToHexAddress Cip37.exampleBound.body).2 = (Cip37.exampleBound.hex, none) ∧
      (Cip37.codec.ToNetworkID Cip37.exampleBound.networkType
          = (Cip37.exampleBound.networkID, none) ∨
        ((Cip37.codec.ToNetworkID Cip37.exampleBound.networkType).2 ≠ none ∧
          Cip37.exampleBound.networkID = 0))) :=
  ⟨by decide, by decide, by decide,
    constructors_establish_cache Cip37.codec Cip37.exampleBound
      (Or.inr ⟨Cip37.examplePayload, [1029], by decide, by decide⟩)⟩

/-- C20, evaluated at the failing input.  The example address built without a
network id and completed with id 1029 agrees with the address built with id
1029 in every field but the cached network id, which is 0 instead of 1029; so
`Equals` reports them different. -/
theorem late_binding_differs :
    Cip37.exampleCompleted.map (fun a => Address.Equals a Cip37.exampleBound) = some false ∧
    Cip37.exampleCompleted.map (fun a => a.networkID) = some 0 ∧
    Cip37.exampleBound.networkID = 1029 ∧
    Cip37.exampleCompleted.map (fun a => { a with networkID := 1029 })
      = some Cip37.exampleBound := by
  decide

end Cfxaddress
